import Mathlib

/-! # IUT-MART: limit-order matching and the session lifecycle

A shallow embedding of the controllers of the marketplace
(`src/controllers/productController.js`, `src/controllers/authController.js`,
the `/dashboard` handler of `src/server.js`, and the schema of
`src/models/User.js`).

Conventions of the embedding:

* a collection of the document store is a list of documents, in insertion
  order; a document carries its `_id` as the field `id`;
* an `await`ed store call is a pure function on the collections; a handler is
  a function from the store (and whatever the request carries) to the new
  store and the response;
* a JavaScript value that may be `undefined` is an `Option`;
* prices and timestamps are natural numbers (timestamps in milliseconds);
* two executions of a handler interleave at their awaited store calls only.
-/

namespace IUTMart

/-! ## Data model -/

/-- Identifier of a document (`_id`), also used for a user reference. -/
abbrev Id := Nat

/-- Record of the `LimitOrder` collection, with the fields the controllers read
and write. A price is a whole number of the currency unit (such numbers are
exact as JavaScript numbers below `2 ^ 53`). -/
structure LimitOrder where
  id : Id
  user : Id
  sector : String
  maxPrice : Nat
  status : String
  createdAt : Nat
  deriving DecidableEq, Repr

/-- Record of the `Product` collection, with the fields the controllers read and write. -/
structure Product where
  id : Id
  title : String
  description : String
  price : Nat
  category : String
  images : List String
  isAnonymous : Bool
  user : Id
  status : String
  deriving DecidableEq, Repr

/-- What an HTTP handler sends back. -/
inductive Response where
  | redirect (url : String)
  | render (code : Nat) (view : String) (error : Option String)
  | json (code : Nat) (success : Bool) (error : String)
  deriving DecidableEq, Repr

/-! ## The listing and order stores -/

/-- The `Product` and `LimitOrder` collections. -/
structure Market where
  products : List Product
  orders : List LimitOrder
  deriving DecidableEq, Repr

/-- Store invariant: `_id` is unique within each collection. -/
def Market.WF (m : Market) : Prop :=
  (m.products.map (·.id)).Nodup ∧ (m.orders.map (·.id)).Nodup

instance (m : Market) : Decidable m.WF := by
  unfold Market.WF; infer_instance

/-- Status of the persisted order with the given `_id`, if there is one. -/
def orderStatus (orders : List LimitOrder) (i : Id) : Option String :=
  (orders.find? (fun o => decide (o.id = i))).map (·.status)

/-- Status of the persisted listing with the given `_id`, if there is one. -/
def productStatus (products : List Product) (i : Id) : Option String :=
  (products.find? (fun p => decide (p.id = i))).map (·.status)

/-- An `_id` not yet used in a collection. -/
def freshId (ids : List Id) : Id := ids.foldr max 0 + 1

/-! ## `createProduct` (productController.js) -/

/-- Body and principal of a `POST /products` request, after the `protect`
and upload middlewares. -/
structure CreateProductReq where
  userId : Id
  title : String
  description : String
  price : Nat
  category : String
  isAnonymous : Option String
  files : Option (List String)
  deriving DecidableEq, Repr

/-- Modelled from the spec: the status of a listing when it is created. The
Product schema (`src/models/Product.js`) is not among the sources; the spec
names the status of a listing on sale `Available`, the literal that
`getProducts` filters on. -/
def defaultProductStatus : String := "Available"

/-- The document handed to `Product.create` (lines 77-93). -/
def CreateProductReq.toProduct (req : CreateProductReq) (i : Id) : Product :=
  { id := i
    title := req.title
    description := req.description
    price := req.price
    category := req.category
    images := match req.files with
      | some fs => fs
      | none => []
    isAnonymous := decide (req.isAnonymous = some "on")
    user := req.userId
    status := defaultProductStatus }

/-- Filter of `LimitOrder.find` at lines 99-104:
`{ sector: category, maxPrice: { $gte: price }, status: 'ACTIVE', user: { $ne: req.user.id } }`.
A string-valued condition of the store is equality of strings. -/
def createMatch (req : CreateProductReq) (o : LimitOrder) : Bool :=
  decide (o.sector = req.category) && decide (o.maxPrice ≥ req.price) &&
    decide (o.status = "ACTIVE") && decide (o.user ≠ req.userId)

/-- The write of `order.save()` after `order.status = 'FILLED'`: the modified
path is set on the persisted document with this `_id`. -/
def LimitOrder.save (orders : List LimitOrder) (o : LimitOrder) : List LimitOrder :=
  orders.map fun x => if x.id = o.id then { x with status := o.status } else x

/-- The loop at lines 106-112. -/
def fillOrders (orders : List LimitOrder) (matching : List LimitOrder) : List LimitOrder :=
  matching.foldl (fun os o => LimitOrder.save os { o with status := "FILLED" }) orders

/-- Handler `createProduct`. `validate` is the validation of the Product
schema (`src/models/Product.js` is not part of the sources): when it rejects,
`Product.create` throws and the `catch` re-renders the form. -/
def createProduct (validate : Product → Bool) (m : Market) (req : CreateProductReq) :
    Market × Response :=
  let doc := req.toProduct (freshId (m.products.map (·.id)))
  if validate doc then
    let products := m.products ++ [doc]
    let matchingOrders := m.orders.filter (createMatch req)
    ({ products := products, orders := fillOrders m.orders matchingOrders },
      Response.redirect "/dashboard")
  else
    (m, Response.render 200 "products/create" (some "Error creating product. Please try again."))

/-! ## Interleaved executions of `createProduct`

A handler runs without interruption between two awaited calls, and each
awaited call is one operation of the store. Two executions of `createProduct`
therefore interleave at the granularity of their awaited calls:
`Product.create`, `LimitOrder.find`, and one `order.save()` per selected order. -/

/-- Where an execution of `createProduct` stands: before `Product.create`,
before `LimitOrder.find`, in the loop with the orders still to be saved, or done. -/
inductive CreateRun where
  | start
  | created
  | filling (pending : List LimitOrder)
  | finished (r : Response)
  deriving DecidableEq, Repr

/-- The next awaited call of an execution on the current store: the new
position, the new store, and the `_id` of the order that `order.save()` wrote
`FILLED` to, if this call was one. The write of `save` carries no condition on
the status the order has in the store. -/
def CreateRun.step (validate : Product → Bool) (req : CreateProductReq) (run : CreateRun)
    (m : Market) : CreateRun × Market × Option Id :=
  match run with
  | CreateRun.start =>
    let doc := req.toProduct (freshId (m.products.map (·.id)))
    if validate doc then
      (CreateRun.created, { products := m.products ++ [doc], orders := m.orders }, none)
    else
      (CreateRun.finished (Response.render 200 "products/create"
        (some "Error creating product. Please try again.")), m, none)
  | CreateRun.created => (CreateRun.filling (m.orders.filter (createMatch req)), m, none)
  | CreateRun.filling [] => (CreateRun.finished (Response.redirect "/dashboard"), m, none)
  | CreateRun.filling (o :: rest) =>
    (CreateRun.filling rest,
      { products := m.products,
        orders := LimitOrder.save m.orders { o with status := "FILLED" } },
      some o.id)
  | CreateRun.finished r => (CreateRun.finished r, m, none)

/-- Whether an execution has sent its response. -/
def CreateRun.isFinished : CreateRun → Bool
  | CreateRun.finished _ => true
  | _ => false

/-- Two executions of `createProduct` on one store. `fills` lists the fill
writes the store has applied, in order: which execution (`false` the first,
`true` the second) and the `_id` of the order. -/
structure Race where
  market : Market
  runA : CreateRun
  runB : CreateRun
  fills : List (Bool × Id)
  deriving DecidableEq, Repr

/-- Both executions about to start on the store `m`. -/
def Race.init (m : Market) : Race :=
  { market := m, runA := CreateRun.start, runB := CreateRun.start, fills := [] }

/-- The entry of the list of fill writes for one call. -/
def fillEntry (who : Bool) (written : Option Id) : List (Bool × Id) :=
  match written with
  | some i => [(who, i)]
  | none => []

/-- The execution `who` performs its next awaited call. -/
def Race.step (validate : Product → Bool) (reqA reqB : CreateProductReq) (s : Race)
    (who : Bool) : Race :=
  if who then
    let r := s.runB.step validate reqB s.market
    { market := r.2.1, runA := s.runA, runB := r.1, fills := s.fills ++ fillEntry true r.2.2 }
  else
    let r := s.runA.step validate reqA s.market
    { market := r.2.1, runA := r.1, runB := s.runB, fills := s.fills ++ fillEntry false r.2.2 }

/-- The calls of a schedule, one after the other. -/
def Race.exec (validate : Product → Bool) (reqA reqB : CreateProductReq) (s : Race)
    (schedule : List Bool) : Race :=
  schedule.foldl (Race.step validate reqA reqB) s

/-- Number of fill writes the execution `who` has performed on the order `i`. -/
def Race.fillsBy (s : Race) (who : Bool) (i : Id) : Nat :=
  s.fills.count (who, i)

/-- Number of fill writes performed on the order `i`. -/
def Race.fillWrites (s : Race) (i : Id) : Nat :=
  s.fillsBy false i + s.fillsBy true i

/-- Number of times the order `i` is among the orders an execution has still to save. -/
def CreateRun.pendingCount (run : CreateRun) (i : Id) : Nat :=
  match run with
  | CreateRun.filling pending => (pending.map (·.id)).count i
  | _ => 0

/-- Whether an execution has made its query of the orders. -/
def CreateRun.hasQueried : CreateRun → Bool
  | CreateRun.filling _ => true
  | CreateRun.finished _ => true
  | _ => false

/-- What holds of one execution with respect to the order `i`, when it has
performed `mine` fill writes on it and the other execution `other`: it writes
the order at most once, not before its query, and after its query it has
written or will write the order unless the other execution has. -/
def RunInv (i : Id) (run : CreateRun) (mine other : Nat) : Prop :=
  mine + run.pendingCount i ≤ 1 ∧
    (run.hasQueried = false → mine = 0) ∧
    (run.hasQueried = true → mine + run.pendingCount i = 1 ∨ 1 ≤ other)

/-- The status the order has in the store after `n` fill writes. -/
def statusAfter (n : Nat) : String :=
  if n = 0 then "ACTIVE" else "FILLED"

/-- Invariant of two interleaved executions with respect to an order `o` of
the initial store: the `_id`s stay unique, the order is persisted with the
status its number of fill writes gives it, and each execution satisfies `RunInv`. -/
def Race.Inv (o : LimitOrder) (s : Race) : Prop :=
  (s.market.orders.map (·.id)).Nodup ∧
    { o with status := statusAfter (s.fillsBy false o.id + s.fillsBy true o.id) } ∈
      s.market.orders ∧
    RunInv o.id s.runA (s.fillsBy false o.id) (s.fillsBy true o.id) ∧
    RunInv o.id s.runB (s.fillsBy true o.id) (s.fillsBy false o.id)

/-- A bound on the number of awaited calls an execution has still to make,
in a store of `n` orders. -/
def CreateRun.stepsLeft (n : Nat) : CreateRun → Nat
  | CreateRun.start => n + 3
  | CreateRun.created => n + 2
  | CreateRun.filling pending => pending.length + 1
  | CreateRun.finished _ => 0

/-! ## `deleteProduct` (productController.js) -/

/-- Query `Product.findById(id)`: the listing with this `_id`. -/
def Product.findById (products : List Product) (i : Id) : Option Product :=
  products.find? fun p => decide (p.id = i)

/-- Call `product.deleteOne()`: one document with this `_id` is removed. -/
def Product.deleteOne (products : List Product) (p : Product) : List Product :=
  products.eraseP fun x => decide (x.id = p.id)

/-- Handler `deleteProduct` (lines 130-150) for the user `userId` that the
`protect` middleware let through. `param` is `req.params.id` read as an `_id`,
`none` when the text is not one: then `findById` rejects and the `catch`
redirects. -/
def deleteProduct (m : Market) (userId : Id) (param : Option Id) : Market × Response :=
  match param with
  | none => (m, Response.redirect "/dashboard")
  | some i =>
    match Product.findById m.products i with
    | none => (m, Response.json 404 false "Product not found")
    | some product =>
      if product.user ≠ userId then (m, Response.json 401 false "Not authorized")
      else
        ({ m with products := Product.deleteOne m.products product },
          Response.redirect "/dashboard")

/-! ## Regular expressions: the fragment the dashboard can build

`new RegExp('^' + order.sector + '$', 'i')` concatenates the sector into the
source of a pattern. The fragment covered here: literal characters, `.`, an
escaped syntax character, the anchors `^` and `$`, and the postfix quantifiers
`*`, `+`, `?` (greedy or lazy, which accept the same strings). Groups,
alternation, classes, braces and letter escapes are outside of it. -/

/-- One character position of a pattern. -/
inductive RxAtom where
  | lit (c : Char)
  | any
  deriving DecidableEq, Repr

/-- Repetition of an atom. -/
inductive RxQuant where
  | one
  | opt
  | star
  | plus
  deriving DecidableEq, Repr

/-- Element of a pattern of the fragment. -/
inductive RxTok where
  | bol
  | eol
  | atom (a : RxAtom) (q : RxQuant)
  deriving DecidableEq, Repr

/-- What a quantifier character would apply to at the current position. -/
inductive RxMark where
  | closed
  | atom
  | quant
  deriving DecidableEq, Repr

/-- State of the left-to-right reading of a pattern source: the elements read
so far (latest first), whether a backslash is pending, and the mark. -/
structure RxState where
  toks : List RxTok
  esc : Bool
  mark : RxMark
  deriving DecidableEq, Repr

/-- Characters with a meaning of their own in a pattern. -/
def rxSyntaxChars : List Char :=
  ['^', '$', '\\', '.', '*', '+', '?', '(', ')', '[', ']', '\x7b', '\x7d', '|']

/-- Apply a quantifier to the element read last. -/
def rxQuantify (q : RxQuant) : List RxTok → Option (List RxTok)
  | RxTok.atom a RxQuant.one :: ts => some (RxTok.atom a q :: ts)
  | _ => none

/-- Read one character of a pattern source; `none` when the pattern is a
syntax error or leaves the fragment. -/
def rxStep (st : RxState) (c : Char) : Option RxState :=
  if st.esc then
    if c ∈ rxSyntaxChars ∨ c = '/' then
      some { toks := RxTok.atom (RxAtom.lit c) RxQuant.one :: st.toks, esc := false, mark := RxMark.atom }
    else none
  else if c = '\\' then some { st with esc := true }
  else if c = '^' then some { toks := RxTok.bol :: st.toks, esc := false, mark := RxMark.closed }
  else if c = '$' then some { toks := RxTok.eol :: st.toks, esc := false, mark := RxMark.closed }
  else if c = '.' then
    some { toks := RxTok.atom RxAtom.any RxQuant.one :: st.toks, esc := false, mark := RxMark.atom }
  else if c = '*' ∨ c = '+' ∨ c = '?' then
    match st.mark with
    | RxMark.atom =>
      (rxQuantify (if c = '*' then RxQuant.star else if c = '+' then RxQuant.plus else RxQuant.opt)
        st.toks).map fun ts => { toks := ts, esc := false, mark := RxMark.quant }
    | RxMark.quant => if c = '?' then some { st with mark := RxMark.closed } else none
    | RxMark.closed => none
  else if c ∈ rxSyntaxChars then none
  else some { toks := RxTok.atom (RxAtom.lit c) RxQuant.one :: st.toks, esc := false, mark := RxMark.atom }

/-- Read a whole pattern source from a state. -/
def rxRead : RxState → List Char → Option RxState
  | st, [] => some st
  | st, c :: cs => (rxStep st c).bind fun st1 => rxRead st1 cs

/-- The elements of a pattern source, or `none`. -/
def rxParse (src : List Char) : Option (List RxTok) :=
  (rxRead { toks := [], esc := false, mark := RxMark.closed } src).bind fun st =>
    if st.esc then none else some st.toks.reverse

/-- Whether an atom accepts a character; `ci` is the flag `i`: letters are
compared after `Char.toLower`, which folds the letters `A`-`Z` only, so a
letter outside ASCII is accepted by itself alone. The dot accepts all but line
terminators. -/
def RxAtom.accepts (ci : Bool) : RxAtom → Char → Bool
  | RxAtom.lit a, c => if ci then a.toLower == c.toLower else a == c
  | RxAtom.any, c => !(c == '\n' || c == '\r' || c == Char.ofNat 0x2028 || c == Char.ofNat 0x2029)

/-- Zero or more characters accepted by `p`, then the continuation `k`. The
boolean says whether the position is still the start of the subject. -/
def rxStar (p : Char → Bool) (k : Bool → List Char → Bool) : Bool → List Char → Bool
  | b, [] => k b []
  | b, c :: cs => k b (c :: cs) || (p c && rxStar p k false cs)

/-- Whether the elements match a prefix of the subject at the current position. -/
def rxMatchHere (ci : Bool) : List RxTok → Bool → List Char → Bool
  | [], _, _ => true
  | RxTok.bol :: ts, b, s => b && rxMatchHere ci ts b s
  | RxTok.eol :: ts, b, s => s.isEmpty && rxMatchHere ci ts b s
  | RxTok.atom a RxQuant.one :: ts, _, s =>
    match s with
    | [] => false
    | c :: cs => a.accepts ci c && rxMatchHere ci ts false cs
  | RxTok.atom a RxQuant.opt :: ts, b, s =>
    rxMatchHere ci ts b s ||
      match s with
      | [] => false
      | c :: cs => a.accepts ci c && rxMatchHere ci ts false cs
  | RxTok.atom a RxQuant.star :: ts, b, s => rxStar (a.accepts ci) (rxMatchHere ci ts) b s
  | RxTok.atom a RxQuant.plus :: ts, _, s =>
    match s with
    | [] => false
    | c :: cs => a.accepts ci c && rxStar (a.accepts ci) (rxMatchHere ci ts) false cs

/-- Whether the elements match somewhere in the subject (`RegExp.prototype.test`,
and the `$regex` operator of the store). -/
def rxSearch (ci : Bool) (toks : List RxTok) : Bool → List Char → Bool
  | b, [] => rxMatchHere ci toks b []
  | b, c :: cs => rxMatchHere ci toks b (c :: cs) || rxSearch ci toks false cs

/-- The condition `{ $regex: new RegExp(src, 'i') }` on a string field. -/
def regexTestI (src : String) (subject : String) : Option Bool :=
  (rxParse src.data).map fun toks => rxSearch true toks true subject.data

/-- Equality of two strings up to the case of the letters `A`-`Z`, compared whole. -/
def ciEq (a b : String) : Bool :=
  a.data.map Char.toLower == b.data.map Char.toLower

/-! ## The dashboard (`GET /dashboard`, server.js) -/

/-- The query of lines 106-110 for one order:
`{ category: { $regex: new RegExp('^' + order.sector + '$', 'i') },
   price: { $lte: order.maxPrice }, user: { $ne: req.user.id } }`.
`none` when the pattern built from the sector is outside the fragment above:
the source is then either rejected by `new RegExp` or a pattern (a group, an
alternation, a class) whose matches are not described here. -/
def dashboardMatches (products : List Product) (order : LimitOrder) (userId : Id) :
    Option (List Product) :=
  match rxParse ("^" ++ order.sector ++ "$").data with
  | none => none
  | some toks =>
    some (products.filter fun p =>
      rxSearch true toks true p.category.data && decide (p.price ≤ order.maxPrice) &&
        decide (p.user ≠ userId))

/-- The locals handed to the `dashboard` view. -/
structure DashboardView where
  myProducts : List Product
  myOrders : List (LimitOrder × List Product)
  deriving DecidableEq, Repr

/-- The `/dashboard` handler (lines 92-121) for the user `userId` that the
`protect` middleware let through: the store after the request, and the view
(`none` when the sector of one of the orders gives a pattern outside the
fragment above; the view is then not described here). The query of line 99
carries the owner only, so orders of every status are listed. -/
def dashboard (m : Market) (userId : Id) : Market × Option DashboardView :=
  let myProducts := m.products.filter fun p => decide (p.user = userId)
  let myOrders := (m.orders.filter fun o => decide (o.user = userId)).insertionSort
    fun a b => a.createdAt ≥ b.createdAt
  let ordersWithMatches := myOrders.mapM fun order =>
    (dashboardMatches m.products order userId).map fun found => (order, found)
  (m, ordersWithMatches.map fun os => { myProducts := myProducts, myOrders := os })

/-! ## Users (models/User.js) -/

/-- Record of the `User` collection. -/
structure User where
  id : Id
  name : String
  email : String
  studentId : Option String
  contactNumber : Option String
  password : Option String
  googleId : Option String
  githubId : Option String
  isAdmin : Bool
  avatar : String
  isVerified : Bool
  otp : Option String
  otpExpires : Option Nat
  createdAt : Nat
  lastLogout : Option Nat
  deriving DecidableEq, Repr

/-- An exception raised while a handler runs. -/
inductive Thrown where
  | typeError (what : String)
  | validation (path : String) (message : String)
  | duplicateKey (path : String)
  | storeFailure
  deriving DecidableEq, Repr

instance : DecidableEq (Except Thrown Unit)
  | Except.ok (), Except.ok () => isTrue rfl
  | Except.error a, Except.error b =>
    if h : a = b then isTrue (by rw [h])
    else isFalse (by intro e; cases e; exact h rfl)
  | Except.ok _, Except.error _ => isFalse (by intro e; cases e)
  | Except.error _, Except.ok _ => isFalse (by intro e; cases e)

/-- The text of `err.message`. -/
def Thrown.message : Thrown → String
  | Thrown.typeError what => "Cannot read properties of undefined (reading '" ++ what ++ "')"
  | Thrown.validation path message => "User validation failed: " ++ path ++ ": " ++ message
  | Thrown.duplicateKey path => "E11000 duplicate key error: " ++ path
  | Thrown.storeFailure => "store failure"

/-- The suffix `@iut-dhaka.edu`. -/
def iutDomain : List Char := "@iut-dhaka.edu".data

/-- The test `email.endsWith('@iut-dhaka.edu')` of the controller. -/
def endsWithIutDomain (email : String) : Bool :=
  iutDomain.isSuffixOf email.data

/-- The class `[a-zA-Z0-9._%+-]`. -/
def isLocalPartChar (c : Char) : Bool :=
  c.isAlphanum || c == '.' || c == '_' || c == '%' || c == '+' || c == '-'

/-- The `match` pattern of the schema, `/^[a-zA-Z0-9._%+-]+@iut-dhaka\.edu$/`:
one or more characters of the class, then the domain, and nothing else. -/
def emailPattern (email : String) : Bool :=
  endsWithIutDomain email &&
    (let loc := email.data.take (email.data.length - iutDomain.length)
     !loc.isEmpty && loc.all isLocalPartChar)

/-- The pattern `/^\d{9}$/`. -/
def nineDigits (s : List Char) : Bool :=
  decide (s.length = 9) && s.all Char.isDigit

/-- The test `/^\d{9}$/.test(studentId)`; an absent field is tested as the
text `undefined`. -/
def studentIdOk (studentId : Option String) : Bool :=
  match studentId with
  | none => false
  | some s => nineDigits s.data

/-- The group `(01[3-9]\d{8})`. -/
def bdMobileCore (s : List Char) : Bool :=
  match s with
  | c0 :: c1 :: c2 :: rest =>
    c0 == '0' && c1 == '1' && ('3' ≤ c2 && c2 ≤ '9') && decide (rest.length = 8) &&
      rest.all Char.isDigit
  | _ => false

/-- The pattern `/^(?:\+88|88)?(01[3-9]\d{8})$/`. -/
def bdMobile (s : List Char) : Bool :=
  bdMobileCore s ||
    (match s with
     | '+' :: '8' :: '8' :: rest => bdMobileCore rest
     | _ => false) ||
    (match s with
     | '8' :: '8' :: rest => bdMobileCore rest
     | _ => false)

/-- The test of the contact number; an absent field is tested as the text `undefined`. -/
def contactOk (contactNumber : Option String) : Bool :=
  match contactNumber with
  | none => false
  | some s => bdMobile s.data

/-- Validation of a document against the schema: `name` and `email` are
required (an empty text counts as missing), and an email has to match the
pattern of the schema. The error names the first failing path; whether the
validation passes does not depend on that choice. -/
def User.validate (u : User) : Except Thrown Unit :=
  if u.name = "" then Except.error (Thrown.validation "name" "Please add a name")
  else if u.email = "" then Except.error (Thrown.validation "email" "Please add an email")
  else if !emailPattern u.email then
    Except.error (Thrown.validation "email" "Please use a valid @iut-dhaka.edu email address")
  else Except.ok ()

/-- The unique indexes: `email`, and `studentId` (sparse) when present. -/
def User.uniqueOk (users : List User) (u : User) : Except Thrown Unit :=
  if users.any fun x => decide (x.email = u.email) then Except.error (Thrown.duplicateKey "email")
  else if users.any fun x => x.studentId.isSome && decide (x.studentId = u.studentId) then
    Except.error (Thrown.duplicateKey "studentId")
  else Except.ok ()

/-- The `pre('save')` hook: a password that is set and not empty is replaced
by its salted hash (`hash` stands for `bcrypt.hash` with a fresh salt). -/
def User.preSave (hash : String → String) (u : User) : User :=
  match u.password with
  | none => u
  | some pw => if pw = "" then u else { u with password := some (hash pw) }

/-- Call `User.create(doc)`: validation, the hook, then the insertion under the
unique indexes. The `_id` of `doc` is replaced by a fresh one. -/
def User.create (hash : String → String) (users : List User) (doc : User) :
    Except Thrown (List User × User) := do
  User.validate doc
  let u := User.preSave hash { doc with id := freshId (users.map (·.id)) }
  User.uniqueOk users u
  pure (users ++ [u], u)

/-- Query `User.findOne({ email })`: the first user with this email. -/
def User.findByEmail (users : List User) (email : String) : Option User :=
  users.find? fun u => decide (u.email = email)

/-- The write of `user.save()`: the persisted document with this `_id` takes the
values of `u`. -/
def User.write (users : List User) (u : User) : List User :=
  users.map fun x => if x.id = u.id then u else x

/-- The unique indexes at a `save`: an indexed path that was modified since the
document was loaded must not hold the value of another document. -/
def User.uniqueOnSave (users : List User) (loaded u : User) : Except Thrown Unit :=
  if decide (u.email ≠ loaded.email) &&
      users.any (fun x => decide (x.id ≠ u.id) && decide (x.email = u.email)) then
    Except.error (Thrown.duplicateKey "email")
  else if decide (u.studentId ≠ loaded.studentId) && u.studentId.isSome &&
      users.any (fun x => decide (x.id ≠ u.id) && decide (x.studentId = u.studentId)) then
    Except.error (Thrown.duplicateKey "studentId")
  else Except.ok ()

/-- Call `user.save()` for a document that was loaded as `loaded` and is now
`u`: the document is validated against the schema (the paths read from the
store included), then its modified paths are written under the unique
indexes. The password is not modified by the handlers that save, so the
hashing hook does nothing. A document that does not validate is not written
and the call rejects. -/
def User.save (users : List User) (loaded u : User) : Except Thrown (List User) := do
  User.validate u
  User.uniqueOnSave users loaded u
  pure (User.write users u)

/-! ## Sessions and replies (authController.js) -/

/-- The part of the process environment the controller reads:
`production` is `process.env.NODE_ENV === 'production'`. -/
structure Config where
  production : Bool
  deriving DecidableEq, Repr

/-- What `jwt.sign` is given: the payload `{ id }` and the option `expiresIn`. -/
structure Token where
  id : Id
  expiresIn : String
  deriving DecidableEq, Repr

/-- The function `generateToken` (lines 12-16). -/
def generateToken (id : Id) : Token :=
  { id := id, expiresIn := "30d" }

/-- A cookie set with `res.cookie`. -/
structure Cookie where
  name : String
  value : Token
  httpOnly : Bool
  secure : Bool
  maxAge : Nat
  deriving DecidableEq, Repr

/-- Everything a handler of the auth controller does to the connection: the
response, the cookies it sets, the cookies it clears, and the user for which
`req.login` establishes a server-side session, if it is called. -/
structure Reply where
  response : Response
  cookies : List Cookie
  cleared : List String
  login : Option Id
  deriving DecidableEq, Repr

/-- A reply that only sends a response. -/
def Reply.plain (r : Response) : Reply :=
  { response := r, cookies := [], cleared := [], login := none }

/-- JavaScript `!s` for a value that is a string or `undefined`. -/
def falsy (s : Option String) : Bool :=
  match s with
  | none => true
  | some v => decide (v = "")

/-! ## `register` -/

/-- Body of `POST /auth/register`; `file` is `req.file.path` when a file was uploaded. -/
structure RegisterReq where
  name : Option String
  email : Option String
  password : Option String
  studentId : Option String
  contactNumber : Option String
  file : Option String
  deriving DecidableEq, Repr

/-- Text of a field concatenated into a string (`undefined` prints as such). -/
def jsText (s : Option String) : String :=
  match s with
  | none => "undefined"
  | some v => v

/-- The message chosen at lines 52-54. -/
def existsMessage (found : User) (email : String) (studentId : Option String) : String :=
  let msg := "User already exists"
  let msg := if found.email = email then "Email already registered" else msg
  if found.studentId = studentId then "Student ID already registered" else msg

/-- Nearest integer to `q`, a tie going to the even neighbour (the rounding
direction of every arithmetic operation on a JavaScript number). -/
def roundHalfEven (q : ℚ) : ℤ :=
  if q - ⌊q⌋ < 1 / 2 then ⌊q⌋
  else if 1 / 2 < q - ⌊q⌋ then ⌊q⌋ + 1
  else if ⌊q⌋ % 2 = 0 then ⌊q⌋ else ⌊q⌋ + 1

/-- Greatest `k ≤ fuel` with `2 ^ k ≤ n`, and `0` when there is none. -/
def log2Upto : Nat → Nat → Nat
  | 0, _ => 0
  | k + 1, n => if 2 ^ (k + 1) ≤ n then k + 1 else log2Upto k n

/-- Exponent of the binade of a binary64 number that holds `x`: `⌊log₂ |x|⌋`,
and `-1022` for the subnormal range. Magnitudes stay below `2 ^ 1024`. -/
def binade (x : ℚ) : ℤ :=
  max ((log2Upto 2100 ⌊|x| * 2 ^ 1074⌋₊ : ℤ) - 1074) (-1022)

/-- Number of binary places after the point that a binary64 number near `x`
keeps: 52 below the leading bit. -/
def fracBits (x : ℚ) : ℤ := 52 - binade x

/-- The binary64 number nearest to `x`, ties to even: the result a JavaScript
arithmetic operation returns when its exact result is `x` (no overflow:
`|x| < 2 ^ 1024`). -/
def roundDouble (x : ℚ) : ℚ :=
  if 0 ≤ fracBits x then
    roundHalfEven (x * 2 ^ (fracBits x).toNat) / 2 ^ (fracBits x).toNat
  else
    roundHalfEven (x / 2 ^ (-fracBits x).toNat) * 2 ^ (-fracBits x).toNat

/-- The number `Math.floor(100000 + Math.random() * 900000)` of line 59 for the
draw `rnd`: the product is rounded to a binary64 number, then the sum is, and
`Math.floor` is exact. -/
def otpNumber (rnd : ℚ) : ℤ :=
  ⌊roundDouble (100000 + roundDouble (rnd * 900000))⌋

/-- The one-time code of line 59 for the draw `rnd` of `Math.random()`: the
decimal text of `otpNumber rnd` (`toString` of an integer below `2 ^ 53`). -/
def generateOtp (rnd : ℚ) : String :=
  toString (otpNumber rnd).toNat

/-- Handler `register`. `hash` is the password hash, `now` is `Date.now()`,
`rnd` the draw of `Math.random()`, `mailOk` whether `sendEmail` resolves. -/
def register (hash : String → String) (now : Nat) (rnd : ℚ) (mailOk : Bool)
    (users : List User) (req : RegisterReq) : List User × Reply :=
  let avatar := match req.file with
    | some path => path
    | none => "https://ui-avatars.com/api/?name=" ++ jsText req.name ++
        "&background=0b0e11&color=fff&size=128"
  match req.email with
  | none =>
    (users, Reply.plain (Response.render 500 "register"
      (some (Thrown.typeError "endsWith").message)))
  | some email =>
    if !endsWithIutDomain email then
      (users, Reply.plain (Response.render 400 "register"
        (some "Registration restricted to @iut-dhaka.edu emails only")))
    else if !studentIdOk req.studentId then
      (users, Reply.plain (Response.render 400 "register"
        (some "Student ID must be exactly 9 digits")))
    else if !contactOk req.contactNumber then
      (users, Reply.plain (Response.render 400 "register"
        (some "Invalid Bangladesh contact number")))
    else
      match users.find? fun u => decide (u.email = email) || decide (u.studentId = req.studentId) with
      | some found =>
        (users, Reply.plain (Response.render 400 "register"
          (some (existsMessage found email req.studentId))))
      | none =>
        let otp := generateOtp rnd
        let otpExpires := now + 5 * 60 * 1000
        let doc : User :=
          { id := 0
            name := req.name.getD ""
            email := email
            password := req.password
            studentId := req.studentId
            contactNumber := req.contactNumber
            googleId := none
            githubId := none
            isAdmin := false
            avatar := avatar
            otp := some otp
            otpExpires := some otpExpires
            isVerified := false
            createdAt := now
            lastLogout := none }
        match User.create hash users doc with
        | Except.error err =>
          (users, Reply.plain (Response.render 500 "register" (some err.message)))
        | Except.ok (users1, _) =>
          if mailOk then
            (users1, Reply.plain (Response.redirect ("/auth/verify?email=" ++ email)))
          else
            (users1, Reply.plain (Response.redirect
              ("/auth/verify?email=" ++ email ++ "&error=CheckConsoleForOTP")))

/-! ## `verifyOtp` -/

/-- Body of `POST /auth/verify`. -/
structure VerifyReq where
  email : String
  otp : Option String
  deriving DecidableEq, Repr

/-- The test `user.otpExpires < Date.now()`; a comparison with `undefined` is false. -/
def otpExpired (otpExpires : Option Nat) (now : Nat) : Bool :=
  match otpExpires with
  | none => false
  | some e => decide (e < now)

/-- Handler `verifyOtp` (lines 117-165); `now` is `Date.now()`. When
`user.save()` rejects, the `catch` renders the form with `Server Error` and
neither cookie nor session is issued. -/
def verifyOtp (cfg : Config) (now : Nat) (users : List User) (req : VerifyReq) :
    List User × Reply :=
  match User.findByEmail users req.email with
  | none => (users, Reply.plain (Response.render 200 "verify" (some "User not found")))
  | some user =>
    if user.isVerified then (users, Reply.plain (Response.redirect "/auth/login"))
    else if user.otp ≠ req.otp then
      (users, Reply.plain (Response.render 200 "verify" (some "Invalid Code")))
    else if otpExpired user.otpExpires now then
      (users, Reply.plain (Response.render 200 "verify"
        (some "Code expired. Please request a new one.")))
    else
      let user1 := { user with isVerified := true, otp := none, otpExpires := none }
      match User.save users user user1 with
      | Except.error _ =>
        (users, Reply.plain (Response.render 200 "verify" (some "Server Error")))
      | Except.ok users1 =>
        (users1,
          { response :=
              if falsy user1.studentId || falsy user1.contactNumber then
                Response.redirect "/auth/complete-profile"
              else Response.redirect "/dashboard"
            cookies := [{ name := "token", value := generateToken user1.id, httpOnly := true,
                          secure := cfg.production, maxAge := 30 * 24 * 60 * 60 * 1000 }]
            cleared := []
            login := some user1.id })

/-! ## `login` -/

/-- Body of `POST /auth/login`. -/
structure LoginReq where
  email : Option String
  password : Option String
  deriving DecidableEq, Repr

/-- Handler `login`. `compare entered stored` is `bcrypt.compare`. The handler
writes nothing to the store. -/
def login (cfg : Config) (compare : String → String → Bool) (users : List User)
    (req : LoginReq) : Reply :=
  if falsy req.email || falsy req.password then
    Reply.plain (Response.render 400 "login" (some "Please provide an email and password"))
  else
    match User.findByEmail users (jsText req.email) with
    | none => Reply.plain (Response.render 401 "login" (some "Invalid credentials"))
    | some user =>
      if falsy user.password then
        Reply.plain (Response.render 400 "login"
          (some "Please login using your social account (Google/GitHub)"))
      else if !compare (jsText req.password) (jsText user.password) then
        Reply.plain (Response.render 401 "login" (some "Invalid credentials"))
      else if !user.isVerified && !falsy user.password then
        Reply.plain (Response.redirect ("/auth/verify?email=" ++ user.email))
      else
        { response := Response.redirect "/dashboard"
          cookies := [{ name := "token", value := generateToken user.id, httpOnly := true,
                        secure := cfg.production, maxAge := 30 * 24 * 60 * 60 * 1000 }]
          cleared := []
          login := none }

/-! ## `logout` -/

/-- The cookies of a `GET /auth/logout` request that the handler reads. -/
structure LogoutReq where
  token : Option String
  deriving DecidableEq, Repr

/-- The steps of `logout` that can fail: `User.findById` and `user.save()`
may reject, `req.logout` and `req.session.destroy` may hand an error to their
callback. -/
structure LogoutFaults where
  findThrows : Bool
  saveThrows : Bool
  passportErr : Bool
  destroyErr : Bool
  deriving DecidableEq, Repr

/-- What the handler leaves behind. `logged` lists the `console.error` labels,
`sessionDestroyed` says whether the server-side session is gone. -/
structure LogoutOutcome where
  users : List User
  reply : Reply
  sessionDestroyed : Bool
  logged : List String
  deriving DecidableEq, Repr

/-- The body of the `try` block (lines 233-243). `decode` is `jwt.decode`
followed by the read of `.id`: `none` when the token does not decode,
`some none` when the payload has no `id`. -/
def logoutStamp (decode : String → Option (Option Id)) (faults : LogoutFaults) (now : Nat)
    (users : List User) (req : LogoutReq) : Except Thrown (List User) :=
  if falsy req.token then pure users
  else
    match decode (jsText req.token) with
    | none => pure users
    | some payloadId =>
      if faults.findThrows then throw Thrown.storeFailure
      else
        match payloadId.bind fun i => users.find? fun u => decide (u.id = i) with
        | none => pure users
        | some user =>
          if faults.saveThrows then throw Thrown.storeFailure
          else User.save users user { user with lastLogout := some now }

/-- Handler `logout` (lines 231-269): the guarded stamp, then the four
cleanup steps, each callback logging the error it is handed and going on. -/
def logout (decode : String → Option (Option Id)) (faults : LogoutFaults) (now : Nat)
    (users : List User) (req : LogoutReq) : Except Thrown LogoutOutcome := do
  let (users1, log1) ←
    tryCatch ((logoutStamp decode faults now users req).map fun us => (us, []))
      fun _ => pure (users, ["Logout Error:"])
  let cleared1 := ["token"]
  let log2 := if faults.passportErr then log1 ++ ["Passport Logout Error:"] else log1
  let log3 := if faults.destroyErr then log2 ++ ["Session Destroy Error:"] else log2
  let cleared2 := cleared1 ++ ["connect.sid"]
  pure
    { users := users1
      reply := { response := Response.redirect "/", cookies := [], cleared := cleared2,
                 login := none }
      sessionDestroyed := !faults.destroyErr
      logged := log3 }

/-- The cookies the browser sends with its next request, after a reply. -/
def LogoutReq.after (req : LogoutReq) (reply : Reply) : LogoutReq :=
  { token := if "token" ∈ reply.cleared then none else req.token }

/-! ## `completeProfile` -/

/-- What `POST /auth/complete-profile` carries: the user of the passport
session (`req.isAuthenticated()` holds when there is one, and `req.user.id` is
that user), the two fields of the body, and `req.file.path` when a file was
uploaded. -/
structure CompleteProfileReq where
  sessionUser : Option Id
  studentId : Option String
  contactNumber : Option String
  file : Option String
  deriving DecidableEq, Repr

/-- Query `User.findById(id)`: the user with this `_id`. -/
def User.findById (users : List User) (i : Id) : Option User :=
  users.find? fun u => decide (u.id = i)

/-- The filter of the uniqueness check (lines 309-312):
`{ $or: [{ studentId }, { contactNumber }], _id: { $ne: user._id } }`. -/
def profileTaken (studentId contactNumber : Option String) (self : Id) (x : User) : Bool :=
  (decide (x.studentId = studentId) || decide (x.contactNumber = contactNumber)) &&
    decide (x.id ≠ self)

/-- Handler `completeProfile` (lines 285-341). When `user.save()` rejects, the
`catch` renders the form with `Server Error` and nothing is written. -/
def completeProfile (cfg : Config) (users : List User) (req : CompleteProfileReq) :
    List User × Reply :=
  match req.sessionUser with
  | none => (users, Reply.plain (Response.redirect "/auth/login"))
  | some uid =>
    match User.findById users uid with
    | none => (users, Reply.plain (Response.redirect "/auth/logout"))
    | some user =>
      if !studentIdOk req.studentId then
        (users, Reply.plain (Response.render 200 "complete-profile"
          (some "Student ID must be exactly 9 digits")))
      else if !contactOk req.contactNumber then
        (users, Reply.plain (Response.render 200 "complete-profile"
          (some "Invalid Bangladesh number")))
      else
        match users.find? (profileTaken req.studentId req.contactNumber user.id) with
        | some _ =>
          (users, Reply.plain (Response.render 200 "complete-profile"
            (some "Student ID or Contact Number already in use")))
        | none =>
          let user1 := { user with studentId := req.studentId,
                                   contactNumber := req.contactNumber, isVerified := true }
          let user2 := match req.file with
            | some path => { user1 with avatar := path }
            | none => user1
          match User.save users user user2 with
          | Except.error _ =>
            (users, Reply.plain (Response.render 200 "complete-profile" (some "Server Error")))
          | Except.ok users1 =>
            (users1,
              { response := Response.redirect "/dashboard"
                cookies := [{ name := "token", value := generateToken user2.id,
                              httpOnly := true, secure := cfg.production,
                              maxAge := 30 * 24 * 60 * 60 * 1000 }]
                cleared := []
                login := none })

/-! ## Scenarios -/

/-- The store and the request of the scenario of the specification: two
`ACTIVE` orders in sector `Electronics` (maxPrice 500 and 800, users 2 and 3)
and a listing of category `electronics` priced 600 from user 1. -/
def electronicsMarket : Market :=
  { products := []
    orders :=
      [{ id := 1, user := 2, sector := "Electronics", maxPrice := 500, status := "ACTIVE",
         createdAt := 10 },
       { id := 2, user := 3, sector := "Electronics", maxPrice := 800, status := "ACTIVE",
         createdAt := 20 }] }

/-- The listing request of the scenario. -/
def electronicsListing : CreateProductReq :=
  { userId := 1, title := "Calculator", description := "Scientific calculator", price := 600,
    category := "electronics", isAnonymous := none, files := none }

/-- The store of the witness of C2: user 1 owns an `ACTIVE` order for
`Books` up to 300; user 2 owns another one. -/
def selfMatchMarket : Market :=
  { products := []
    orders :=
      [{ id := 1, user := 1, sector := "Books", maxPrice := 300, status := "ACTIVE",
         createdAt := 10 },
       { id := 2, user := 2, sector := "Books", maxPrice := 300, status := "ACTIVE",
         createdAt := 20 }] }

/-- The listing of the dashboard scenario of the specification, with a given status:
category `Books`, price 150, owned by user 2. -/
def booksListing (status : String) : Product :=
  { id := 1, title := "Algorithms", description := "Textbook", price := 150, category := "Books",
    images := [], isAnonymous := false, user := 2, status := status }

/-- An order of user 1 with maxPrice 200 in the given sector. -/
def booksOrder (sector : String) : LimitOrder :=
  { id := 1, user := 1, sector := sector, maxPrice := 200, status := "ACTIVE", createdAt := 10 }

/-- The store of the dashboard scenario: the listing and the order for `Books`. -/
def booksMarket : Market :=
  { products := [booksListing "Available"], orders := [booksOrder "Books"] }

/-- A registered, not yet verified user with a pending code that expires at time 1000. -/
def aliceUnverified : User :=
  { id := 1, name := "Alice", email := "alice@iut-dhaka.edu", studentId := some "210041234",
    contactNumber := some "01712345678", password := some "hash:secret12", googleId := none,
    githubId := none, isAdmin := false, avatar := "alice.png", isVerified := false,
    otp := some "123456", otpExpires := some 1000, createdAt := 0, lastLogout := none }

/-- A verified user who signed up through a social provider and has no password. -/
def bobSocial : User :=
  { id := 2, name := "Bob", email := "bob@iut-dhaka.edu", studentId := some "210041235",
    contactNumber := some "01812345678", password := none, googleId := some "g-2",
    githubId := none, isAdmin := false, avatar := "bob.png", isVerified := true,
    otp := none, otpExpires := none, createdAt := 0, lastLogout := none }

/-- A password check for the scenarios: the stored text is `hash:` followed by the password. -/
def scenarioCompare (entered stored : String) : Bool :=
  decide (stored = "hash:" ++ entered)

/-- A registration request with well-formed fields and the given email. -/
def registerReqWith (email : String) : RegisterReq :=
  { name := some "Carol", email := some email, password := some "secret12",
    studentId := some "210041236", contactNumber := some "01912345678", file := none }

/-- A reply issues the session artifacts when it sets the `token` cookie and
establishes the server-side session. -/
def Reply.authenticated (r : Reply) : Bool :=
  (r.cookies.any fun c => decide (c.name = "token")) && r.login.isSome

/-- The session artifacts a reply establishes: the cookies it sets and the
user of the server-side session. -/
def Reply.artifacts (r : Reply) : List Cookie × Option Id :=
  (r.cookies, r.login)

/-- A social-login user, not verified yet, whose record already holds a student
id and a contact number. -/
def daveSocial : User :=
  { id := 3, name := "Dave", email := "dave@iut-dhaka.edu", studentId := some "210041237",
    contactNumber := some "01512345678", password := none, googleId := none,
    githubId := some "gh-3", isAdmin := false, avatar := "dave.png", isVerified := false,
    otp := none, otpExpires := none, createdAt := 0, lastLogout := none }

/-- The order of the race scenario: `ACTIVE`, for `Books` up to 300, owned by user 1. -/
def raceOrder : LimitOrder :=
  { id := 1, user := 1, sector := "Books", maxPrice := 300, status := "ACTIVE", createdAt := 10 }

/-- The store of the race scenario: that order and no listing. -/
def raceMarket : Market :=
  { products := [], orders := [raceOrder] }

/-- The listing of user 2 in the race scenario: `Books` at 250. -/
def raceListingA : CreateProductReq :=
  { userId := 2, title := "Algorithms", description := "Textbook", price := 250,
    category := "Books", isAnonymous := none, files := none }

/-- The listing of user 3 in the race scenario: `Books` at 200. -/
def raceListingB : CreateProductReq :=
  { userId := 3, title := "Compilers", description := "Textbook", price := 200,
    category := "Books", isAnonymous := none, files := none }

/-- The interleaving in which both executions query the orders before either
saves: create, create, find, find, save, save, and the two responses. -/
def racySchedule : List Bool :=
  [false, true, false, true, false, true, false, true]

/-- A stored user whose email is not of the institutional domain, not verified,
with a pending code that expires at time 1000. -/
def eveGmail : User :=
  { id := 4, name := "Eve", email := "eve@gmail.com", studentId := some "210041238",
    contactNumber := some "01612345678", password := some "hash:secret12", googleId := none,
    githubId := none, isAdmin := false, avatar := "eve.png", isVerified := false,
    otp := some "123456", otpExpires := some 1000, createdAt := 0, lastLogout := none }

/-- A stored social-login user like `daveSocial`, but whose email is not of the
institutional domain. -/
def daveGmail : User :=
  { daveSocial with email := "dave@gmail.com" }

/-- A draw of `Math.random()`, a multiple of `2 ^ -52`, for which the rounded
product and sum of line 59 reach the next integer although the exact value
`100000 + 900000 * r` stays below it. -/
def drawRoundedUp : ℚ := 150119987579 / 2 ^ 52

/-! ## Theorems -/

/-- One `save` of a filled order rewrites exactly the documents with that `_id`. -/
theorem fillOrders_eq_map (matching orders : List LimitOrder) :
    fillOrders orders matching =
      orders.map fun x =>
        if x.id ∈ matching.map (·.id) then { x with status := "FILLED" } else x := by
  unfold fillOrders
  induction matching generalizing orders with
  | nil => simp
  | cons a as ih =>
    rw [List.foldl_cons, ih]
    simp only [LimitOrder.save, List.map_map, List.map_cons, List.mem_cons]
    apply List.map_congr_left
    intro x _
    simp only [Function.comp_apply]
    by_cases h1 : x.id = a.id
    · rw [if_pos h1, if_pos (Or.inl h1)]
      split <;> rfl
    · rw [if_neg h1]
      by_cases h2 : x.id ∈ as.map (·.id)
      · rw [if_pos h2, if_pos (Or.inr h2)]
      · rw [if_neg h2, if_neg (fun h => h.elim h1 h2)]

/-- In a collection with unique `_id`s, two documents with the same `_id` are the same. -/
theorem order_eq_of_id_eq {orders : List LimitOrder} (hn : (orders.map (·.id)).Nodup)
    {a b : LimitOrder} (ha : a ∈ orders) (hb : b ∈ orders) (h : a.id = b.id) : a = b :=
  List.inj_on_of_nodup_map hn ha hb h

/-- In a collection with unique `_id`s, looking a document up by its `_id` finds it. -/
theorem find_order_of_mem {orders : List LimitOrder} (hn : (orders.map (·.id)).Nodup)
    {o : LimitOrder} (ho : o ∈ orders) :
    orders.find? (fun x => decide (x.id = o.id)) = some o := by
  induction orders with
  | nil => cases ho
  | cons a as ih =>
    rw [List.map_cons, List.nodup_cons] at hn
    rcases List.mem_cons.mp ho with h | h
    · subst h; simp
    · have hne : a.id ≠ o.id := fun e => hn.1 (e ▸ List.mem_map_of_mem (·.id) h)
      rw [List.find?_cons_of_neg _ (by simpa using hne)]
      exact ih hn.2 h

/-- Status of a persisted order: the status of the document with that `_id`. -/
theorem orderStatus_of_mem {orders : List LimitOrder} (hn : (orders.map (·.id)).Nodup)
    {o : LimitOrder} (ho : o ∈ orders) : orderStatus orders o.id = some o.status := by
  unfold orderStatus
  rw [find_order_of_mem hn ho]
  rfl

/-- A status rewrite that keeps every `_id` commutes with the lookup by `_id`. -/
theorem orderStatus_map (f : LimitOrder → LimitOrder) (hf : ∀ x, (f x).id = x.id)
    (orders : List LimitOrder) (i : Id) :
    orderStatus (orders.map f) i =
      (orders.find? (fun x => decide (x.id = i))).map fun x => (f x).status := by
  unfold orderStatus
  induction orders with
  | nil => rfl
  | cons a as ih =>
    rw [List.map_cons]
    by_cases h : a.id = i
    · rw [List.find?_cons_of_pos _ (by simpa [hf] using h),
        List.find?_cons_of_pos _ (by simpa using h)]
      rfl
    · rw [List.find?_cons_of_neg _ (by simpa [hf] using h),
        List.find?_cons_of_neg _ (by simpa using h)]
      exact ih

/-- What `createProduct` does to the status of a persisted order, when the
listing is created: it becomes `FILLED` if the order satisfies the filter of
the query (equality of sector and category as strings), and is kept otherwise. -/
theorem createProduct_orderStatus (validate : Product → Bool) (m : Market)
    (req : CreateProductReq) (hwf : m.WF)
    (hv : validate (req.toProduct (freshId (m.products.map (·.id)))) = true)
    {o : LimitOrder} (ho : o ∈ m.orders) :
    orderStatus (createProduct validate m req).1.orders o.id =
      some (if createMatch req o then "FILLED" else o.status) := by
  have hn := hwf.2
  simp only [createProduct, hv, if_true, fillOrders_eq_map]
  rw [orderStatus_map _ (fun x => by split <;> rfl), find_order_of_mem hn ho]
  simp only [Option.map_some']
  by_cases hm : createMatch req o = true
  · have : o.id ∈ (m.orders.filter (createMatch req)).map (·.id) :=
      List.mem_map_of_mem (·.id) (List.mem_filter.mpr ⟨ho, hm⟩)
    rw [if_pos this, if_pos hm]
  · have : o.id ∉ (m.orders.filter (createMatch req)).map (·.id) := by
      intro hmem
      obtain ⟨y, hy, hid⟩ := List.mem_map.mp hmem
      have hy2 := List.mem_filter.mp hy
      have := order_eq_of_id_eq hn hy2.1 ho hid
      exact hm (this ▸ hy2.2)
    rw [if_neg this, if_neg hm]

/-- When the listing is rejected by the schema, `createProduct` writes nothing. -/
theorem createProduct_invalid (validate : Product → Bool) (m : Market) (req : CreateProductReq)
    (hv : validate (req.toProduct (freshId (m.products.map (·.id)))) = false) :
    (createProduct validate m req).1 = m := by
  simp [createProduct, hv]

/-- C1: at the scenario of the specification (orders in sector `Electronics`,
listing of category `electronics` priced 600 by another user) the listing is
created, yet the order with maxPrice 800 is not `FILLED`: both orders stay
`ACTIVE`, because the query of `createProduct` compares sector and category as
strings, case included; with the category spelled `Electronics` the same call
fills exactly the maxPrice-800 order. -/
theorem createProduct_case_sensitive_scenario :
    electronicsMarket.WF ∧
    ciEq "Electronics" electronicsListing.category = true ∧
    (createProduct (fun _ => true) electronicsMarket electronicsListing).2 =
      Response.redirect "/dashboard" ∧
    ((createProduct (fun _ => true) electronicsMarket electronicsListing).1.products.map
      (·.category)) = ["electronics"] ∧
    orderStatus (createProduct (fun _ => true) electronicsMarket electronicsListing).1.orders 1 =
      some "ACTIVE" ∧
    orderStatus (createProduct (fun _ => true) electronicsMarket electronicsListing).1.orders 2 =
      some "ACTIVE" ∧
    orderStatus (createProduct (fun _ => true) electronicsMarket
      { electronicsListing with category := "Electronics" }).1.orders 1 = some "ACTIVE" ∧
    orderStatus (createProduct (fun _ => true) electronicsMarket
      { electronicsListing with category := "Electronics" }).1.orders 2 = some "FILLED" := by
  decide

/-- C2: self-match exclusion. In a store with unique `_id`s, whatever listing
the user `req.userId` creates (or fails to create), every persisted order owned
by that user has the same status after `createProduct` as before; so an
`ACTIVE` order of the user, also one in the sector of the listing with a
sufficient maxPrice, is not `FILLED`. -/
theorem createProduct_self_orders_unchanged (validate : Product → Bool) (m : Market)
    (req : CreateProductReq) (o : LimitOrder) (hwf : m.WF) (ho : o ∈ m.orders)
    (hu : o.user = req.userId) :
    orderStatus (createProduct validate m req).1.orders o.id = orderStatus m.orders o.id ∧
    orderStatus m.orders o.id = some o.status ∧
    (o.status = "ACTIVE" →
      orderStatus (createProduct validate m req).1.orders o.id ≠ some "FILLED") := by
  have hbefore := orderStatus_of_mem hwf.2 ho
  have hafter : orderStatus (createProduct validate m req).1.orders o.id = some o.status := by
    cases hv : validate (req.toProduct (freshId (m.products.map (·.id))))
    · rw [createProduct_invalid validate m req hv, hbefore]
    · rw [createProduct_orderStatus validate m req hwf hv ho]
      have : createMatch req o = false := by simp [createMatch, hu]
      simp [this]
  refine ⟨by rw [hafter, hbefore], hbefore, fun hs => ?_⟩
  rw [hafter, hs]
  decide

/-- Witness of C2: user 1 lists a `Books` item at 250; the order of user 1
keeps its status `ACTIVE`. -/
theorem createProduct_self_orders_unchanged_witness :
    orderStatus (createProduct (fun _ => true) selfMatchMarket
      { userId := 1, title := "Algorithms", description := "Textbook", price := 250,
        category := "Books", isAnonymous := none, files := none }).1.orders 1 =
      orderStatus selfMatchMarket.orders 1 ∧
    orderStatus selfMatchMarket.orders 1 = some "ACTIVE" ∧
    ("ACTIVE" = "ACTIVE" →
      orderStatus (createProduct (fun _ => true) selfMatchMarket
        { userId := 1, title := "Algorithms", description := "Textbook", price := 250,
          category := "Books", isAnonymous := none, files := none }).1.orders 1 ≠
        some "FILLED") :=
  createProduct_self_orders_unchanged (fun _ => true) selfMatchMarket
    { userId := 1, title := "Algorithms", description := "Textbook", price := 250,
      category := "Books", isAnonymous := none, files := none }
    { id := 1, user := 1, sector := "Books", maxPrice := 300, status := "ACTIVE",
      createdAt := 10 }
    (by decide) (by decide) rfl

/-- Reading a pattern source in two parts. -/
theorem rxRead_append (st : RxState) (a b : List Char) :
    rxRead st (a ++ b) = (rxRead st a).bind fun st1 => rxRead st1 b := by
  induction a generalizing st with
  | nil => rfl
  | cons c cs ih =>
    simp only [List.cons_append, rxRead]
    cases rxStep st c with
    | none => rfl
    | some st1 => exact ih st1

/-- A character without a meaning of its own is read as a literal. -/
theorem rxStep_plain (st : RxState) (c : Char) (hesc : st.esc = false)
    (hc : c ∉ rxSyntaxChars) :
    rxStep st c =
      some { toks := RxTok.atom (RxAtom.lit c) RxQuant.one :: st.toks, esc := false,
             mark := RxMark.atom } := by
  have h := hc
  simp only [rxSyntaxChars, List.mem_cons, List.mem_singleton, List.not_mem_nil, or_false,
    not_or] at h
  obtain ⟨h1, h2, h3, h4, h5, h6, h7, -⟩ := h
  unfold rxStep
  rw [if_neg (by simp [hesc]), if_neg h3, if_neg h1, if_neg h2, if_neg h4,
    if_neg (by simp [h5, h6, h7]), if_neg hc]

/-- A source made of such characters is read as the sequence of its literals. -/
theorem rxRead_plain (cs : List Char) (hcs : ∀ c ∈ cs, c ∉ rxSyntaxChars) (st : RxState)
    (hesc : st.esc = false) :
    ∃ mk, rxRead st cs =
      some { toks := (cs.map fun c => RxTok.atom (RxAtom.lit c) RxQuant.one).reverse ++ st.toks,
             esc := false, mark := mk } := by
  induction cs generalizing st with
  | nil => exact ⟨st.mark, by cases st; simp_all [rxRead]⟩
  | cons c cs ih =>
    have hc := hcs c (List.mem_cons_self _ _)
    obtain ⟨mk, hmk⟩ := ih (fun d hd => hcs d (List.mem_cons_of_mem _ hd))
      { toks := RxTok.atom (RxAtom.lit c) RxQuant.one :: st.toks, esc := false,
        mark := RxMark.atom } rfl
    refine ⟨mk, ?_⟩
    simp only [rxRead, rxStep_plain st c hesc hc, Option.some_bind, hmk, List.map_cons,
      List.reverse_cons, List.append_assoc, List.singleton_append]

/-- The pattern `'^' + sector + '$'` for a sector without pattern characters:
start anchor, the literals of the sector, end anchor. -/
theorem rxParse_anchored_plain (cs : List Char) (hcs : ∀ c ∈ cs, c ∉ rxSyntaxChars) :
    rxParse ('^' :: (cs ++ ['$'])) =
      some (RxTok.bol :: ((cs.map fun c => RxTok.atom (RxAtom.lit c) RxQuant.one) ++
        [RxTok.eol])) := by
  unfold rxParse
  have hstart : rxStep { toks := [], esc := false, mark := RxMark.closed } '^' =
      some { toks := [RxTok.bol], esc := false, mark := RxMark.closed } := by decide
  obtain ⟨mk, hmk⟩ := rxRead_plain cs hcs
    { toks := [RxTok.bol], esc := false, mark := RxMark.closed } rfl
  have hend : rxStep
      { toks := (cs.map fun c => RxTok.atom (RxAtom.lit c) RxQuant.one).reverse ++ [RxTok.bol],
        esc := false, mark := mk } '$' =
      some { toks := RxTok.eol ::
               ((cs.map fun c => RxTok.atom (RxAtom.lit c) RxQuant.one).reverse ++ [RxTok.bol]),
             esc := false, mark := RxMark.closed } := by
    simp [rxStep]
  simp only [rxRead, hstart, Option.some_bind, rxRead_append, hmk, hend]
  simp

/-- A sequence of literals followed by the end anchor matches exactly the
subjects equal to it up to letter case. -/
theorem rxMatchHere_literals (cs : List Char) (b : Bool) (s : List Char) :
    rxMatchHere true ((cs.map fun c => RxTok.atom (RxAtom.lit c) RxQuant.one) ++ [RxTok.eol])
        b s =
      (cs.map Char.toLower == s.map Char.toLower) := by
  induction cs generalizing b s with
  | nil =>
    cases s with
    | nil => rfl
    | cons d ds => rfl
  | cons c cs ih =>
    cases s with
    | nil => rfl
    | cons d ds =>
      show (RxAtom.accepts true (RxAtom.lit c) d &&
        rxMatchHere true ((cs.map fun c => RxTok.atom (RxAtom.lit c) RxQuant.one) ++
          [RxTok.eol]) false ds) = _
      rw [ih]
      rfl

/-- A pattern that starts with the start anchor matches nowhere but at the start. -/
theorem rxSearch_bol (ci : Bool) (toks : List RxTok) (s : List Char) :
    rxSearch ci (RxTok.bol :: toks) true s = rxMatchHere ci (RxTok.bol :: toks) true s := by
  have hlater : ∀ t : List Char, rxSearch ci (RxTok.bol :: toks) false t = false := by
    intro t
    induction t with
    | nil => simp [rxSearch, rxMatchHere]
    | cons d ds ih => simp [rxSearch, rxMatchHere, ih]
  cases s with
  | nil => rfl
  | cons d ds => simp [rxSearch, hlater]

/-- The read-time query for an order whose sector has no pattern characters:
the listings, of any status, whose category equals the sector up to letter
case, whose price is at most the maxPrice and whose owner is another user. -/
theorem dashboardMatches_plain (products : List Product) (order : LimitOrder) (userId : Id)
    (h : ∀ c ∈ order.sector.data, c ∉ rxSyntaxChars) :
    dashboardMatches products order userId =
      some (products.filter fun p =>
        ciEq order.sector p.category && decide (p.price ≤ order.maxPrice) &&
          decide (p.user ≠ userId)) := by
  unfold dashboardMatches
  have hsrc : ("^" ++ order.sector ++ "$").data = '^' :: (order.sector.data ++ ['$']) := by
    simp [String.data_append]
  rw [hsrc, rxParse_anchored_plain _ h]
  simp only [rxSearch_bol, rxMatchHere, Bool.true_and, rxMatchHere_literals, ciEq]

/-- C3: the read-time query at the scenario of the specification returns the
`Available` listing; but the same query also returns the listing when its
status is `Sold` (the query has no condition on `status`), and an order whose
sector is the text `B..ks`, which is not `Books` in any letter case, is
matched with the `Books` listing (the sector is read as a pattern). -/
theorem dashboardMatches_scenarios :
    dashboardMatches [booksListing "Available"] (booksOrder "Books") 1 =
      some [booksListing "Available"] ∧
    dashboardMatches [booksListing "Available"] (booksOrder "bOOKS") 1 =
      some [booksListing "Available"] ∧
    dashboardMatches [booksListing "Available"] (booksOrder "Book") 1 = some [] ∧
    dashboardMatches [booksListing "Sold"] (booksOrder "Books") 1 = some [booksListing "Sold"] ∧
    ciEq "B..ks" (booksListing "Available").category = false ∧
    dashboardMatches [booksListing "Available"] (booksOrder "B..ks") 1 =
      some [booksListing "Available"] := by
  decide

/-- C4: the dashboard handler leaves the stores as they are, whichever user
asks and whatever the orders match: every persisted order and listing has the
same status after the read; at the scenario of the specification the view
shows the matching listing and the order is still `ACTIVE`, whereas creating
a matching listing (the create-time path) turns that order to `FILLED`. -/
theorem dashboard_leaves_store (m : Market) (userId : Id) :
    (dashboard m userId).1 = m ∧
    (∀ i, orderStatus (dashboard m userId).1.orders i = orderStatus m.orders i) ∧
    (∀ i, productStatus (dashboard m userId).1.products i = productStatus m.products i) ∧
    (dashboard booksMarket 1).2 =
      some { myProducts := [], myOrders := [(booksOrder "Books", [booksListing "Available"])] } ∧
    orderStatus (dashboard booksMarket 1).1.orders 1 = some "ACTIVE" ∧
    orderStatus (createProduct (fun _ => true) booksMarket
      { userId := 2, title := "Compilers", description := "Textbook", price := 180,
        category := "Books", isAnonymous := none, files := none }).1.orders 1 = some "FILLED" := by
  refine ⟨rfl, fun _ => rfl, fun _ => rfl, ?_, ?_, ?_⟩ <;> decide

/-- A document whose email fails the pattern of the schema does not validate. -/
theorem User.validate_error_of_email (u : User) (h : emailPattern u.email = false) :
    ∃ err, User.validate u = Except.error err := by
  unfold User.validate
  by_cases h1 : u.name = ""
  · exact ⟨_, if_pos h1⟩
  · by_cases h2 : u.email = ""
    · exact ⟨_, by rw [if_neg h1, if_pos h2]⟩
    · exact ⟨_, by rw [if_neg h1, if_neg h2, if_pos (by simp [h])]⟩

/-- A document that does not validate is not inserted: `User.create` throws. -/
theorem User.create_error_of_validate (hash : String → String) (users : List User) (u : User)
    (err : Thrown) (h : User.validate u = Except.error err) :
    User.create hash users u = Except.error err := by
  simp [User.create, h, bind, Except.bind]

/-- C5, as stated, fails: the email `@iut-dhaka.edu` (empty local part) does
not match the institutional pattern, passes the suffix test of the controller
and, the other fields being well-formed and unused, is rejected by the schema
validation inside `User.create`, whose error is answered with status 500. -/
theorem register_unmatched_email_not_400 :
    emailPattern "@iut-dhaka.edu" = false ∧
    (register (fun pw => "hash:" ++ pw) 5000 0 true [] (registerReqWith "@iut-dhaka.edu")).2.response =
      Response.render 500 "register"
        (some "User validation failed: email: Please use a valid @iut-dhaka.edu email address") ∧
    ¬ ∃ msg, (register (fun pw => "hash:" ++ pw) 5000 0 true []
        (registerReqWith "@iut-dhaka.edu")).2.response =
      Response.render 400 "register" (some msg) := by
  have h : (register (fun pw => "hash:" ++ pw) 5000 0 true []
      (registerReqWith "@iut-dhaka.edu")).2.response =
      Response.render 500 "register"
        (some "User validation failed: email: Please use a valid @iut-dhaka.edu email address") := by
    decide
  refine ⟨by decide, h, ?_⟩
  rintro ⟨msg, hmsg⟩
  rw [h] at hmsg
  injection hmsg with hcode
  exact absurd hcode (by decide)

/-- C5, amended: a registration whose email does not match the institutional
pattern creates no user record and re-renders the registration form with an
error message, with status 400 or 500; when the email does not end with
`@iut-dhaka.edu` the status is 400 and the message is the one about the
restricted domain. -/
theorem register_rejects_unmatched_email (hash : String → String) (now : Nat) (rnd : ℚ)
    (mailOk : Bool) (users : List User) (req : RegisterReq) (e : String)
    (he : req.email = some e) (hp : emailPattern e = false) :
    (register hash now rnd mailOk users req).1 = users ∧
    (∃ code msg, (register hash now rnd mailOk users req).2 =
        Reply.plain (Response.render code "register" (some msg)) ∧ (code = 400 ∨ code = 500)) ∧
    (endsWithIutDomain e = false →
      (register hash now rnd mailOk users req).2 =
        Reply.plain (Response.render 400 "register"
          (some "Registration restricted to @iut-dhaka.edu emails only"))) := by
  unfold register
  simp only [he]
  cases hd : endsWithIutDomain e
  · exact ⟨rfl, ⟨400, _, rfl, Or.inl rfl⟩, fun _ => rfl⟩
  · cases hs : studentIdOk req.studentId
    · exact ⟨rfl, ⟨400, _, rfl, Or.inl rfl⟩, fun h => by cases h⟩
    · cases hc : contactOk req.contactNumber
      · exact ⟨rfl, ⟨400, _, rfl, Or.inl rfl⟩, fun h => by cases h⟩
      · simp only [Bool.not_true, Bool.false_eq_true, if_false]
        split
        · exact ⟨rfl, ⟨400, _, rfl, Or.inl rfl⟩, fun h => by cases h⟩
        · rename_i hfind
          obtain ⟨err, herr⟩ := User.validate_error_of_email
            { id := 0, name := req.name.getD "", email := e, password := req.password,
              studentId := req.studentId, contactNumber := req.contactNumber, googleId := none,
              githubId := none, isAdmin := false,
              avatar := match req.file with
                | some path => path
                | none => "https://ui-avatars.com/api/?name=" ++ jsText req.name ++
                    "&background=0b0e11&color=fff&size=128",
              otp := some (generateOtp rnd), otpExpires := some (now + 5 * 60 * 1000),
              isVerified := false, createdAt := now, lastLogout := none } hp
          rw [User.create_error_of_validate hash users _ err herr]
          exact ⟨rfl, ⟨500, _, rfl, Or.inr rfl⟩, fun h => by cases h⟩

/-- Witness of C5 (amended): the email `carol@gmail.com` on an empty store. -/
theorem register_rejects_unmatched_email_witness :
    (register (fun pw => "hash:" ++ pw) 5000 0 true [] (registerReqWith "carol@gmail.com")).1 = [] ∧
    (∃ code msg, (register (fun pw => "hash:" ++ pw) 5000 0 true []
        (registerReqWith "carol@gmail.com")).2 =
        Reply.plain (Response.render code "register" (some msg)) ∧ (code = 400 ∨ code = 500)) ∧
    (endsWithIutDomain "carol@gmail.com" = false →
      (register (fun pw => "hash:" ++ pw) 5000 0 true [] (registerReqWith "carol@gmail.com")).2 =
        Reply.plain (Response.render 400 "register"
          (some "Registration restricted to @iut-dhaka.edu emails only"))) :=
  register_rejects_unmatched_email (fun pw => "hash:" ++ pw) 5000 0 true []
    (registerReqWith "carol@gmail.com") "carol@gmail.com" rfl (by decide)

/-- C6, as stated, fails: for the unverified user whose code `123456` expired
at time 1000, a call at time 2000 with the code `000000` is answered with the
message of a wrong code, not with the message of an expired one. -/
theorem verifyOtp_late_wrong_code_not_expired :
    User.findByEmail [aliceUnverified] "alice@iut-dhaka.edu" = some aliceUnverified ∧
    aliceUnverified.isVerified = false ∧
    aliceUnverified.otpExpires = some 1000 ∧
    (verifyOtp { production := true } 2000 [aliceUnverified]
      { email := "alice@iut-dhaka.edu", otp := some "000000" }).2.response =
      Response.render 200 "verify" (some "Invalid Code") ∧
    (verifyOtp { production := true } 2000 [aliceUnverified]
      { email := "alice@iut-dhaka.edu", otp := some "000000" }).2.response ≠
      Response.render 200 "verify" (some "Code expired. Please request a new one.") := by
  decide

/-- C6, amended: for an existing, not yet verified user, a call made after
the stored expiry fails: the store is unchanged (the user stays unverified,
code and expiry are kept), no cookie is set and no session is established;
the error is the expired-code error when the submitted code equals the stored
code, and the wrong-code error when it differs. -/
theorem verifyOtp_after_expiry (cfg : Config) (now : Nat) (users : List User) (req : VerifyReq)
    (u : User) (e : Nat) (hf : User.findByEmail users req.email = some u)
    (hv : u.isVerified = false) (he : u.otpExpires = some e) (hlate : e < now) :
    (verifyOtp cfg now users req).1 = users ∧
    (verifyOtp cfg now users req).2.cookies = [] ∧
    (verifyOtp cfg now users req).2.login = none ∧
    (u.otp = req.otp →
      (verifyOtp cfg now users req).2.response =
        Response.render 200 "verify" (some "Code expired. Please request a new one.")) ∧
    (u.otp ≠ req.otp →
      (verifyOtp cfg now users req).2.response =
        Response.render 200 "verify" (some "Invalid Code")) := by
  have hexp : otpExpired u.otpExpires now = true := by simp [otpExpired, he, hlate]
  unfold verifyOtp
  simp only [hf, hv, Bool.false_eq_true, if_false]
  by_cases hc : u.otp = req.otp
  · simp [hc, hexp, Reply.plain]
  · simp [hc, Reply.plain]

/-- Witness of C6 (amended): the right code `123456`, submitted at time 2000
for a code that expired at time 1000. -/
theorem verifyOtp_after_expiry_witness :
    (verifyOtp { production := true } 2000 [aliceUnverified]
      { email := "alice@iut-dhaka.edu", otp := some "123456" }).1 = [aliceUnverified] ∧
    (verifyOtp { production := true } 2000 [aliceUnverified]
      { email := "alice@iut-dhaka.edu", otp := some "123456" }).2.cookies = [] ∧
    (verifyOtp { production := true } 2000 [aliceUnverified]
      { email := "alice@iut-dhaka.edu", otp := some "123456" }).2.login = none ∧
    (aliceUnverified.otp = some "123456" →
      (verifyOtp { production := true } 2000 [aliceUnverified]
        { email := "alice@iut-dhaka.edu", otp := some "123456" }).2.response =
        Response.render 200 "verify" (some "Code expired. Please request a new one.")) ∧
    (aliceUnverified.otp ≠ some "123456" →
      (verifyOtp { production := true } 2000 [aliceUnverified]
        { email := "alice@iut-dhaka.edu", otp := some "123456" }).2.response =
        Response.render 200 "verify" (some "Invalid Code")) :=
  verifyOtp_after_expiry { production := true } 2000 [aliceUnverified]
    { email := "alice@iut-dhaka.edu", otp := some "123456" } aliceUnverified 1000
    (by decide) rfl rfl (by decide)

/-- After `save` of a document loaded by its email, the lookup by that email
returns the saved document. -/
theorem User.findByEmail_write (users : List User) (email : String) (u v : User)
    (hf : User.findByEmail users email = some u) (hid : v.id = u.id) (hem : v.email = email) :
    User.findByEmail (User.write users v) email = some v := by
  unfold User.findByEmail User.write at *
  induction users with
  | nil => cases hf
  | cons a as ih =>
    rw [List.map_cons]
    by_cases hida : a.id = v.id
    · rw [if_pos hida, List.find?_cons_of_pos _ (by simpa using hem)]
    · rw [if_neg hida]
      by_cases hea : a.email = email
      · rw [List.find?_cons_of_pos _ (by simpa using hea)] at hf
        injection hf with hf
        exact absurd (hf ▸ hid.symm) hida
      · rw [List.find?_cons_of_neg _ (by simpa using hea)] at hf
        rw [List.find?_cons_of_neg _ (by simpa using hea)]
        exact ih hf

/-- Validation reads the name and the email only. -/
theorem User.validate_congr (u v : User) (hn : u.name = v.name) (he : u.email = v.email) :
    User.validate u = User.validate v := by
  unfold User.validate
  rw [hn, he]

/-- A `save` that modifies no indexed path meets no duplicate. -/
theorem User.uniqueOnSave_unchanged (users : List User) (loaded u : User)
    (he : u.email = loaded.email) (hs : u.studentId = loaded.studentId) :
    User.uniqueOnSave users loaded u = Except.ok () := by
  simp [User.uniqueOnSave, he, hs]

/-- A `save` of a valid document that meets no duplicate writes it. -/
theorem User.save_ok (users : List User) (loaded u : User)
    (hv : User.validate u = Except.ok ())
    (hq : User.uniqueOnSave users loaded u = Except.ok ()) :
    User.save users loaded u = Except.ok (User.write users u) := by
  simp only [User.save, hv, hq, bind, Except.bind, pure, Except.pure]

/-- A `save` of a document that does not validate rejects. -/
theorem User.save_error (users : List User) (loaded u : User)
    (hv : User.validate u ≠ Except.ok ()) :
    ∃ err, User.save users loaded u = Except.error err := by
  cases h : User.validate u with
  | error err => exact ⟨err, by simp only [User.save, h, bind, Except.bind]⟩
  | ok x => exact absurd h hv

/-- What a `save` that resolves has done: the document was valid and is written. -/
theorem User.save_ok_inv (users users1 : List User) (loaded u : User)
    (h : User.save users loaded u = Except.ok users1) :
    users1 = User.write users u ∧ User.validate u = Except.ok () := by
  unfold User.save at h
  cases hv : User.validate u with
  | error err => simp [hv, bind, Except.bind] at h
  | ok x =>
    cases hq : User.uniqueOnSave users loaded u with
    | error err => simp [hv, hq, bind, Except.bind] at h
    | ok y =>
      simp only [hv, hq, bind, Except.bind, pure, Except.pure, Except.ok.injEq] at h
      exact ⟨h.symm, rfl⟩

/-- The handler `verifyOtp` once the user is found: the four checks in their
order, then the `save` and its two outcomes. -/
theorem verifyOtp_found (cfg : Config) (now : Nat) (users : List User) (req : VerifyReq)
    (u : User) (hf : User.findByEmail users req.email = some u) :
    verifyOtp cfg now users req =
      if u.isVerified then (users, Reply.plain (Response.redirect "/auth/login"))
      else if u.otp ≠ req.otp then
        (users, Reply.plain (Response.render 200 "verify" (some "Invalid Code")))
      else if otpExpired u.otpExpires now then
        (users, Reply.plain (Response.render 200 "verify"
          (some "Code expired. Please request a new one.")))
      else
        match User.save users u { u with isVerified := true, otp := none, otpExpires := none } with
        | Except.error _ =>
          (users, Reply.plain (Response.render 200 "verify" (some "Server Error")))
        | Except.ok users1 =>
          (users1,
            { response :=
                if falsy u.studentId || falsy u.contactNumber then
                  Response.redirect "/auth/complete-profile"
                else Response.redirect "/dashboard"
              cookies := [{ name := "token", value := generateToken u.id, httpOnly := true,
                            secure := cfg.production, maxAge := 30 * 24 * 60 * 60 * 1000 }]
              cleared := []
              login := some u.id }) := by
  simp only [verifyOtp, hf]

/-- The `save` of `verifyOtp` resolves exactly when the stored document is valid. -/
theorem verifyOtp_save (users : List User) (u : User) :
    (User.validate u = Except.ok () →
      User.save users u { u with isVerified := true, otp := none, otpExpires := none } =
        Except.ok (User.write users
          { u with isVerified := true, otp := none, otpExpires := none })) ∧
    (User.validate u ≠ Except.ok () →
      ∃ err, User.save users u { u with isVerified := true, otp := none, otpExpires := none } =
        Except.error err) := by
  have hval : User.validate { u with isVerified := true, otp := none, otpExpires := none } =
      User.validate u := User.validate_congr _ _ rfl rfl
  refine ⟨fun hv => ?_, fun hv => ?_⟩
  · exact User.save_ok users u _ (hval.trans hv) (User.uniqueOnSave_unchanged users u _ rfl rfl)
  · exact User.save_error users u _ (by rw [hval]; exact hv)

/-- C7, as stated, fails: Eve's record exists, is not verified, the submitted
code `123456` is the stored one and the time 500 is before the expiry 1000,
yet `verifyOtp` does not succeed: the stored email does not pass the
validation that `user.save()` runs, the answer is `Server Error`, nothing is
written and neither cookie nor session is issued. The same happens for the
social-login record of Dave, which holds no code, when no code is submitted. -/
theorem verifyOtp_invalid_record_server_error :
    User.findByEmail [eveGmail] "eve@gmail.com" = some eveGmail ∧
    eveGmail.isVerified = false ∧
    eveGmail.otp = some "123456" ∧
    eveGmail.otpExpires = some 1000 ∧
    (verifyOtp { production := true } 500 [eveGmail]
      { email := "eve@gmail.com", otp := some "123456" }).2.authenticated = false ∧
    verifyOtp { production := true } 500 [eveGmail]
        { email := "eve@gmail.com", otp := some "123456" } =
      ([eveGmail], Reply.plain (Response.render 200 "verify" (some "Server Error"))) ∧
    verifyOtp { production := true } 500 [aliceUnverified, daveGmail]
        { email := "dave@gmail.com", otp := none } =
      ([aliceUnverified, daveGmail],
        Reply.plain (Response.render 200 "verify" (some "Server Error"))) := by
  decide

/-- C7, amended: the user that `verifyOtp` looks up is the first user of the
store with the email. `verifyOtp` issues the token cookie and the session
exactly when such a user exists, is not verified yet, the submitted code is
the stored code (both may be absent), the time is not past the stored expiry,
and the stored record passes the validation of `user.save()`; then the saved
user is verified with code and expiry cleared, the cookie is the http-only
30-day token of that user and the session is that user's. Otherwise nothing is
written or issued and the error is the first that applies among: not found,
already verified (a redirect to the login page), wrong code, expired code,
server error (the save rejected). -/
theorem verifyOtp_outcomes (cfg : Config) (now : Nat) (users : List User) (req : VerifyReq) :
    ((User.findByEmail users req.email = none ↔ ∀ x ∈ users, x.email ≠ req.email) ∧
      ∀ u, User.findByEmail users req.email = some u ↔
        ∃ pre post, users = pre ++ u :: post ∧ (∀ x ∈ pre, x.email ≠ req.email) ∧
          u.email = req.email) ∧
    ((verifyOtp cfg now users req).2.authenticated = true ↔
      ∃ u, User.findByEmail users req.email = some u ∧ u.isVerified = false ∧
        u.otp = req.otp ∧ (∀ e, u.otpExpires = some e → now ≤ e) ∧
        User.validate u = Except.ok ()) ∧
    (∀ u, User.findByEmail users req.email = some u →
      (verifyOtp cfg now users req).2.authenticated = true →
        (verifyOtp cfg now users req).1 =
            User.write users { u with isVerified := true, otp := none, otpExpires := none } ∧
          User.findByEmail (verifyOtp cfg now users req).1 req.email =
            some { u with isVerified := true, otp := none, otpExpires := none } ∧
          (verifyOtp cfg now users req).2.cookies =
            [{ name := "token", value := { id := u.id, expiresIn := "30d" }, httpOnly := true,
               secure := cfg.production, maxAge := 2592000000 }] ∧
          (verifyOtp cfg now users req).2.login = some u.id) ∧
    (User.findByEmail users req.email = none →
      verifyOtp cfg now users req =
        (users, Reply.plain (Response.render 200 "verify" (some "User not found")))) ∧
    (∀ u, User.findByEmail users req.email = some u → u.isVerified = true →
      verifyOtp cfg now users req = (users, Reply.plain (Response.redirect "/auth/login"))) ∧
    (∀ u, User.findByEmail users req.email = some u → u.isVerified = false →
      u.otp ≠ req.otp →
      verifyOtp cfg now users req =
        (users, Reply.plain (Response.render 200 "verify" (some "Invalid Code")))) ∧
    (∀ u, User.findByEmail users req.email = some u → u.isVerified = false →
      u.otp = req.otp → (∃ e, u.otpExpires = some e ∧ e < now) →
      verifyOtp cfg now users req =
        (users, Reply.plain (Response.render 200 "verify"
          (some "Code expired. Please request a new one.")))) ∧
    (∀ u, User.findByEmail users req.email = some u → u.isVerified = false →
      u.otp = req.otp → (∀ e, u.otpExpires = some e → now ≤ e) →
      User.validate u ≠ Except.ok () →
      verifyOtp cfg now users req =
        (users, Reply.plain (Response.render 200 "verify" (some "Server Error")))) := by
  have hexp : ∀ (x : Option Nat), (otpExpired x now = false ↔ ∀ e, x = some e → now ≤ e) := by
    intro x
    cases x with
    | none => simp [otpExpired]
    | some e => simp [otpExpired]
  have hlookup : (User.findByEmail users req.email = none ↔ ∀ x ∈ users, x.email ≠ req.email) ∧
      ∀ u, User.findByEmail users req.email = some u ↔
        ∃ pre post, users = pre ++ u :: post ∧ (∀ x ∈ pre, x.email ≠ req.email) ∧
          u.email = req.email := by
    refine ⟨by simp [User.findByEmail], fun u => ?_⟩
    unfold User.findByEmail
    rw [List.find?_eq_some]
    constructor
    · rintro ⟨hu, pre, post, hsplit, hpre⟩
      exact ⟨pre, post, hsplit, fun x hx => by simpa using hpre x hx, by simpa using hu⟩
    · rintro ⟨pre, post, hsplit, hpre, hu⟩
      exact ⟨by simpa using hu, pre, post, hsplit, fun x hx => by simpa using hpre x hx⟩
  refine ⟨hlookup, ?_⟩
  cases hf : User.findByEmail users req.email with
  | none =>
    have hrun : verifyOtp cfg now users req =
        (users, Reply.plain (Response.render 200 "verify" (some "User not found"))) := by
      simp only [verifyOtp, hf]
    refine ⟨?_, ?_, ?_, ?_, ?_, ?_, ?_⟩
    · rw [hrun]; simp [Reply.plain, Reply.authenticated]
    · intro u hu; cases hu
    · intro _; exact hrun
    · intro u hu; cases hu
    · intro u hu; cases hu
    · intro u hu; cases hu
    · intro u hu; cases hu
  | some u =>
    have hrun := verifyOtp_found cfg now users req u hf
    have hsave := verifyOtp_save users u
    cases hv : u.isVerified with
    | true =>
      have hres : verifyOtp cfg now users req =
          (users, Reply.plain (Response.redirect "/auth/login")) := by
        rw [hrun]; simp [hv]
      refine ⟨?_, ?_, ?_, ?_, ?_, ?_, ?_⟩
      · rw [hres]; simp [Reply.plain, Reply.authenticated, hv]
      · intro u1 _ hauth
        rw [hres] at hauth
        simp [Reply.plain, Reply.authenticated] at hauth
      · intro h; cases h
      · intro u1 _ _; exact hres
      · intro u1 hu1 hv1; cases hu1; rw [hv] at hv1; cases hv1
      · intro u1 hu1 hv1; cases hu1; rw [hv] at hv1; cases hv1
      · intro u1 hu1 hv1; cases hu1; rw [hv] at hv1; cases hv1
    | false =>
      by_cases hc : u.otp = req.otp
      · cases hx : otpExpired u.otpExpires now with
        | true =>
          have hnot : ¬ ∀ e, u.otpExpires = some e → now ≤ e := by
            rw [← hexp]; simp [hx]
          have hres : verifyOtp cfg now users req =
              (users, Reply.plain (Response.render 200 "verify"
                (some "Code expired. Please request a new one."))) := by
            rw [hrun]; simp [hv, hc, hx]
          refine ⟨?_, ?_, ?_, ?_, ?_, ?_, ?_⟩
          · rw [hres]
            simp only [Option.some.injEq, exists_eq_left']
            simp [Reply.plain, Reply.authenticated, hnot]
          · intro u1 _ hauth
            rw [hres] at hauth
            simp [Reply.plain, Reply.authenticated] at hauth
          · intro h; cases h
          · intro u1 hu1 hv1; cases hu1; rw [hv] at hv1; cases hv1
          · intro u1 hu1 _ hne; cases hu1; exact absurd hc hne
          · intro u1 _ _ _ _; exact hres
          · intro u1 hu1 _ _ hall; cases hu1; exact absurd hall hnot
        | false =>
          have hyes : ∀ e, u.otpExpires = some e → now ≤ e := (hexp _).mp hx
          by_cases hval : User.validate u = Except.ok ()
          · have hres : verifyOtp cfg now users req =
                (User.write users { u with isVerified := true, otp := none, otpExpires := none },
                  { response :=
                      if falsy u.studentId || falsy u.contactNumber then
                        Response.redirect "/auth/complete-profile"
                      else Response.redirect "/dashboard"
                    cookies := [{ name := "token", value := generateToken u.id, httpOnly := true,
                                  secure := cfg.production,
                                  maxAge := 30 * 24 * 60 * 60 * 1000 }]
                    cleared := []
                    login := some u.id }) := by
              rw [hrun, hsave.1 hval]; simp [hv, hc, hx]
            refine ⟨?_, ?_, ?_, ?_, ?_, ?_, ?_⟩
            · rw [hres]
              simp only [Option.some.injEq, exists_eq_left']
              simp [Reply.authenticated, hv, hc, hval]
              exact hyes
            · intro u1 hu1 _
              cases hu1
              rw [hres]
              refine ⟨rfl, ?_, rfl, rfl⟩
              have hmail : u.email = req.email := by
                have := List.find?_some hf
                simpa using this
              exact User.findByEmail_write users req.email u _ hf rfl hmail
            · intro h; cases h
            · intro u1 hu1 hv1; cases hu1; rw [hv] at hv1; cases hv1
            · intro u1 hu1 _ hne; cases hu1; exact absurd hc hne
            · intro u1 hu1 _ _ hlate
              cases hu1
              obtain ⟨e, he, hlt⟩ := hlate
              exact absurd (hyes e he) (by omega)
            · intro u1 hu1 _ _ _ hbad; cases hu1; exact absurd hval hbad
          · obtain ⟨err, herr⟩ := hsave.2 hval
            have hres : verifyOtp cfg now users req =
                (users, Reply.plain (Response.render 200 "verify" (some "Server Error"))) := by
              rw [hrun, herr]; simp [hv, hc, hx]
            refine ⟨?_, ?_, ?_, ?_, ?_, ?_, ?_⟩
            · rw [hres]
              simp only [Option.some.injEq, exists_eq_left']
              simp [Reply.plain, Reply.authenticated, hval]
            · intro u1 _ hauth
              rw [hres] at hauth
              simp [Reply.plain, Reply.authenticated] at hauth
            · intro h; cases h
            · intro u1 hu1 hv1; cases hu1; rw [hv] at hv1; cases hv1
            · intro u1 hu1 _ hne; cases hu1; exact absurd hc hne
            · intro u1 hu1 _ _ hlate
              cases hu1
              obtain ⟨e, he, hlt⟩ := hlate
              exact absurd (hyes e he) (by omega)
            · intro u1 _ _ _ _ _; exact hres
      · have hres : verifyOtp cfg now users req =
            (users, Reply.plain (Response.render 200 "verify" (some "Invalid Code"))) := by
          rw [hrun]; simp [hv, hc]
        refine ⟨?_, ?_, ?_, ?_, ?_, ?_, ?_⟩
        · rw [hres]
          simp only [Option.some.injEq, exists_eq_left']
          simp [Reply.plain, Reply.authenticated, hc]
        · intro u1 _ hauth
          rw [hres] at hauth
          simp [Reply.plain, Reply.authenticated] at hauth
        · intro h; cases h
        · intro u1 hu1 hv1; cases hu1; rw [hv] at hv1; cases hv1
        · intro u1 _ _ _; exact hres
        · intro u1 hu1 _ heq; cases hu1; exact absurd heq hc
        · intro u1 hu1 _ heq; cases hu1; exact absurd heq hc

/-- Witness of C7 (amended): Alice submits the right code at time 500, before the
expiry 1000; that record is the first with the email and is valid, so the cookie
and the session are issued and the saved record is verified with the code and
the expiry cleared. -/
theorem verifyOtp_outcomes_witness :
    (verifyOtp { production := true } 500 [bobSocial, aliceUnverified]
      { email := "alice@iut-dhaka.edu", otp := some "123456" }).2.authenticated = true ∧
    (verifyOtp { production := true } 500 [bobSocial, aliceUnverified]
        { email := "alice@iut-dhaka.edu", otp := some "123456" }).1 =
      [bobSocial, { aliceUnverified with isVerified := true, otp := none, otpExpires := none }] ∧
    (verifyOtp { production := true } 500 [bobSocial, aliceUnverified]
        { email := "alice@iut-dhaka.edu", otp := some "123456" }).2.login = some 1 :=
  ⟨((verifyOtp_outcomes { production := true } 500 [bobSocial, aliceUnverified]
      { email := "alice@iut-dhaka.edu", otp := some "123456" }).2.1).mpr
      ⟨aliceUnverified, by decide, rfl, rfl, by decide, by decide⟩,
    (((verifyOtp_outcomes { production := true } 500 [bobSocial, aliceUnverified]
      { email := "alice@iut-dhaka.edu", otp := some "123456" }).2.2.1)
      aliceUnverified (by decide) (by decide)).1.trans (by decide),
    (((verifyOtp_outcomes { production := true } 500 [bobSocial, aliceUnverified]
      { email := "alice@iut-dhaka.edu", otp := some "123456" }).2.2.1)
      aliceUnverified (by decide) (by decide)).2.2.2⟩

/-- C8, as stated, fails: a login for the social-only account (no password
hash) is not answered with the `Invalid credentials` response but with status
400 and the advice to use the social account. -/
theorem login_social_only_not_invalid_credentials :
    User.findByEmail [bobSocial] "bob@iut-dhaka.edu" = some bobSocial ∧
    bobSocial.password = none ∧
    (login { production := true } scenarioCompare [bobSocial]
      { email := some "bob@iut-dhaka.edu", password := some "secret12" }).response =
      Response.render 400 "login"
        (some "Please login using your social account (Google/GitHub)") ∧
    (login { production := true } scenarioCompare [bobSocial]
      { email := some "bob@iut-dhaka.edu", password := some "secret12" }).response ≠
      Response.render 401 "login" (some "Invalid credentials") := by
  decide

/-- C8, amended: for a login with a non-empty email and password, no token
cookie is set and no session is established in each of the three cases; the
response is `Invalid credentials` (status 401) when no user has the email and
when the password check fails, and is status 400 with the advice to use the
social account when the user has no password hash. -/
theorem login_rejections (cfg : Config) (compare : String → String → Bool) (users : List User)
    (req : LoginReq) (he : falsy req.email = false) (hp : falsy req.password = false) :
    (User.findByEmail users (jsText req.email) = none →
      login cfg compare users req =
        Reply.plain (Response.render 401 "login" (some "Invalid credentials"))) ∧
    (∀ u, User.findByEmail users (jsText req.email) = some u → falsy u.password = true →
      login cfg compare users req =
        Reply.plain (Response.render 400 "login"
          (some "Please login using your social account (Google/GitHub)"))) ∧
    (∀ u, User.findByEmail users (jsText req.email) = some u → falsy u.password = false →
      compare (jsText req.password) (jsText u.password) = false →
      login cfg compare users req =
        Reply.plain (Response.render 401 "login" (some "Invalid credentials"))) ∧
    ((User.findByEmail users (jsText req.email) = none ∨
        ∃ u, User.findByEmail users (jsText req.email) = some u ∧
          (falsy u.password = true ∨
            compare (jsText req.password) (jsText u.password) = false)) →
      (login cfg compare users req).cookies = [] ∧ (login cfg compare users req).login = none) := by
  have h1 : User.findByEmail users (jsText req.email) = none →
      login cfg compare users req =
        Reply.plain (Response.render 401 "login" (some "Invalid credentials")) := by
    intro hf
    simp [login, he, hp, hf]
  have h2 : ∀ u, User.findByEmail users (jsText req.email) = some u → falsy u.password = true →
      login cfg compare users req =
        Reply.plain (Response.render 400 "login"
          (some "Please login using your social account (Google/GitHub)")) := by
    intro u hf hpw
    simp [login, he, hp, hf, hpw]
  have h3 : ∀ u, User.findByEmail users (jsText req.email) = some u → falsy u.password = false →
      compare (jsText req.password) (jsText u.password) = false →
      login cfg compare users req =
        Reply.plain (Response.render 401 "login" (some "Invalid credentials")) := by
    intro u hf hpw hcmp
    simp [login, he, hp, hf, hpw, hcmp]
  refine ⟨h1, h2, h3, ?_⟩
  rintro (hf | ⟨u, hf, hpw | hcmp⟩)
  · rw [h1 hf]; exact ⟨rfl, rfl⟩
  · rw [h2 u hf hpw]; exact ⟨rfl, rfl⟩
  · cases hpw : falsy u.password
    · rw [h3 u hf hpw hcmp]; exact ⟨rfl, rfl⟩
    · rw [h2 u hf hpw]; exact ⟨rfl, rfl⟩

/-- Witness of C8 (amended): a wrong password for the account of Alice. -/
theorem login_rejections_witness :
    (User.findByEmail [aliceUnverified, bobSocial] (jsText (some "alice@iut-dhaka.edu")) = none →
      login { production := true } scenarioCompare [aliceUnverified, bobSocial]
          { email := some "alice@iut-dhaka.edu", password := some "wrong" } =
        Reply.plain (Response.render 401 "login" (some "Invalid credentials"))) ∧
    (∀ u, User.findByEmail [aliceUnverified, bobSocial] (jsText (some "alice@iut-dhaka.edu")) =
        some u → falsy u.password = true →
      login { production := true } scenarioCompare [aliceUnverified, bobSocial]
          { email := some "alice@iut-dhaka.edu", password := some "wrong" } =
        Reply.plain (Response.render 400 "login"
          (some "Please login using your social account (Google/GitHub)"))) ∧
    (∀ u, User.findByEmail [aliceUnverified, bobSocial] (jsText (some "alice@iut-dhaka.edu")) =
        some u → falsy u.password = false →
      scenarioCompare (jsText (some "wrong")) (jsText u.password) = false →
      login { production := true } scenarioCompare [aliceUnverified, bobSocial]
          { email := some "alice@iut-dhaka.edu", password := some "wrong" } =
        Reply.plain (Response.render 401 "login" (some "Invalid credentials"))) ∧
    ((User.findByEmail [aliceUnverified, bobSocial] (jsText (some "alice@iut-dhaka.edu")) = none ∨
        ∃ u, User.findByEmail [aliceUnverified, bobSocial] (jsText (some "alice@iut-dhaka.edu")) =
            some u ∧
          (falsy u.password = true ∨
            scenarioCompare (jsText (some "wrong")) (jsText u.password) = false)) →
      (login { production := true } scenarioCompare [aliceUnverified, bobSocial]
          { email := some "alice@iut-dhaka.edu", password := some "wrong" }).cookies = [] ∧
        (login { production := true } scenarioCompare [aliceUnverified, bobSocial]
          { email := some "alice@iut-dhaka.edu", password := some "wrong" }).login = none) :=
  login_rejections { production := true } scenarioCompare [aliceUnverified, bobSocial]
    { email := some "alice@iut-dhaka.edu", password := some "wrong" } (by decide) (by decide)

/-- The artifacts of a `verifyOtp` that authenticates: the token cookie of the
user found, and a session for that user. -/
theorem verifyOtp_authenticated_reply (cfg : Config) (now : Nat) (users : List User)
    (req : VerifyReq) (u : User) (hf : User.findByEmail users req.email = some u)
    (ha : (verifyOtp cfg now users req).2.authenticated = true) :
    (verifyOtp cfg now users req).2.cookies =
      [{ name := "token", value := { id := u.id, expiresIn := "30d" }, httpOnly := true,
         secure := cfg.production, maxAge := 2592000000 }] ∧
    (verifyOtp cfg now users req).2.login = some u.id := by
  rw [verifyOtp_found cfg now users req u hf] at ha ⊢
  cases hv : u.isVerified with
  | true => simp [hv, Reply.plain, Reply.authenticated] at ha
  | false =>
    by_cases hc : u.otp = req.otp
    · cases hx : otpExpired u.otpExpires now with
      | true => simp [hv, hc, hx, Reply.plain, Reply.authenticated] at ha
      | false =>
        cases hs : User.save users u
            { u with isVerified := true, otp := none, otpExpires := none } with
        | error err => simp [hv, hc, hx, hs, Reply.plain, Reply.authenticated] at ha
        | ok users1 => simp [hv, hc, hx, generateToken]
    · simp [hv, hc, Reply.plain, Reply.authenticated] at ha

/-- The reply of a `login` that sets a cookie: the token cookie of the user
found, and no call of `req.login`. -/
theorem login_cookie_reply (cfg : Config) (compare : String → String → Bool)
    (users : List User) (req : LoginReq) (u : User)
    (hf : User.findByEmail users (jsText req.email) = some u)
    (hs : (login cfg compare users req).cookies ≠ []) :
    (login cfg compare users req).cookies =
      [{ name := "token", value := { id := u.id, expiresIn := "30d" }, httpOnly := true,
         secure := cfg.production, maxAge := 2592000000 }] ∧
    (login cfg compare users req).login = none := by
  unfold login at hs ⊢
  simp only [hf] at hs ⊢
  split_ifs at hs ⊢
  all_goals first
    | exact ⟨rfl, rfl⟩
    | simp [Reply.plain] at hs

/-- C9, as stated, fails: Alice verifies the email at time 500 with the right
code (token cookie and session issued), then logs in with the password on the
resulting store; that login succeeds with the token cookie but its artifacts
are not those of the verification, as it establishes no server-side session. -/
theorem login_artifacts_differ_from_verifyOtp :
    (verifyOtp { production := true } 500 [aliceUnverified]
      { email := "alice@iut-dhaka.edu", otp := some "123456" }).2.authenticated = true ∧
    (login { production := true } scenarioCompare
      (verifyOtp { production := true } 500 [aliceUnverified]
        { email := "alice@iut-dhaka.edu", otp := some "123456" }).1
      { email := some "alice@iut-dhaka.edu", password := some "secret12" }).response =
      Response.redirect "/dashboard" ∧
    (login { production := true } scenarioCompare
      (verifyOtp { production := true } 500 [aliceUnverified]
        { email := "alice@iut-dhaka.edu", otp := some "123456" }).1
      { email := some "alice@iut-dhaka.edu", password := some "secret12" }).artifacts ≠
    (verifyOtp { production := true } 500 [aliceUnverified]
      { email := "alice@iut-dhaka.edu", otp := some "123456" }).2.artifacts ∧
    (login { production := true } scenarioCompare
      (verifyOtp { production := true } 500 [aliceUnverified]
        { email := "alice@iut-dhaka.edu", otp := some "123456" }).1
      { email := some "alice@iut-dhaka.edu", password := some "secret12" }).login = none := by
  decide

/-- C9, amended: a successful login sets the same token cookie as a
successful `verifyOtp` for the same user (the token of the user with the
30-day expiry, http-only, secure in production, 30-day max age), and nothing
else: `verifyOtp` also establishes the server-side session of the user, `login`
establishes none. -/
theorem login_cookie_same_as_verifyOtp (cfg : Config) (compare : String → String → Bool)
    (now : Nat) (usersL usersV : List User) (lreq : LoginReq) (vreq : VerifyReq) (u v : User)
    (hL : User.findByEmail usersL (jsText lreq.email) = some u)
    (hV : User.findByEmail usersV vreq.email = some v) (hid : u.id = v.id)
    (hLs : (login cfg compare usersL lreq).cookies ≠ [])
    (hVs : (verifyOtp cfg now usersV vreq).2.authenticated = true) :
    (login cfg compare usersL lreq).cookies = (verifyOtp cfg now usersV vreq).2.cookies ∧
    (login cfg compare usersL lreq).cookies =
      [{ name := "token", value := { id := u.id, expiresIn := "30d" }, httpOnly := true,
         secure := cfg.production, maxAge := 30 * 24 * 60 * 60 * 1000 }] ∧
    (verifyOtp cfg now usersV vreq).2.login = some u.id ∧
    (login cfg compare usersL lreq).login = none := by
  obtain ⟨hc1, hl1⟩ := login_cookie_reply cfg compare usersL lreq u hL hLs
  obtain ⟨hc2, hl2⟩ := verifyOtp_authenticated_reply cfg now usersV vreq v hV hVs
  refine ⟨?_, hc1, ?_, hl1⟩
  · rw [hc1, hc2, hid]
  · rw [hl2, hid]

/-- Witness of C9 (amended): the verification of Alice at time 500, then the
login of Alice on the resulting store. -/
theorem login_cookie_same_as_verifyOtp_witness :
    (login { production := true } scenarioCompare
        [{ aliceUnverified with isVerified := true, otp := none, otpExpires := none }]
        { email := some "alice@iut-dhaka.edu", password := some "secret12" }).cookies =
      (verifyOtp { production := true } 500 [aliceUnverified]
        { email := "alice@iut-dhaka.edu", otp := some "123456" }).2.cookies ∧
    (login { production := true } scenarioCompare
        [{ aliceUnverified with isVerified := true, otp := none, otpExpires := none }]
        { email := some "alice@iut-dhaka.edu", password := some "secret12" }).cookies =
      [{ name := "token", value := { id := 1, expiresIn := "30d" }, httpOnly := true,
         secure := true, maxAge := 30 * 24 * 60 * 60 * 1000 }] ∧
    (verifyOtp { production := true } 500 [aliceUnverified]
        { email := "alice@iut-dhaka.edu", otp := some "123456" }).2.login = some 1 ∧
    (login { production := true } scenarioCompare
        [{ aliceUnverified with isVerified := true, otp := none, otpExpires := none }]
        { email := some "alice@iut-dhaka.edu", password := some "secret12" }).login = none :=
  login_cookie_same_as_verifyOtp { production := true } scenarioCompare 500
    [{ aliceUnverified with isVerified := true, otp := none, otpExpires := none }]
    [aliceUnverified]
    { email := some "alice@iut-dhaka.edu", password := some "secret12" }
    { email := "alice@iut-dhaka.edu", otp := some "123456" }
    { aliceUnverified with isVerified := true, otp := none, otpExpires := none }
    aliceUnverified (by decide) (by decide) rfl (by decide) (by decide)

/-- C10: whatever the request carries and whichever of the four fallible
steps fail, `logout` completes without throwing and has cleared both the
`token` and the `connect.sid` cookie, and answers with the redirect to `/`;
a second `logout` right after it, on the store and the cookies the first one
left and under any failures of its own, again completes and clears both. -/
theorem logout_always_clears (decode : String → Option (Option Id)) (faults : LogoutFaults)
    (now : Nat) (users : List User) (req : LogoutReq) :
    ∃ out, logout decode faults now users req = Except.ok out ∧
      "token" ∈ out.reply.cleared ∧ "connect.sid" ∈ out.reply.cleared ∧
      out.reply.response = Response.redirect "/" ∧ out.reply.cookies = [] ∧
      ∀ (faults2 : LogoutFaults) (now2 : Nat),
        ∃ out2, logout decode faults2 now2 out.users (req.after out.reply) = Except.ok out2 ∧
          "token" ∈ out2.reply.cleared ∧ "connect.sid" ∈ out2.reply.cleared ∧
          out2.reply.response = Response.redirect "/" ∧ out2.reply.cookies = [] := by
  have key : ∀ (f : LogoutFaults) (t : Nat) (us : List User) (r : LogoutReq),
      ∃ out, logout decode f t us r = Except.ok out ∧
        "token" ∈ out.reply.cleared ∧ "connect.sid" ∈ out.reply.cleared ∧
        out.reply.response = Response.redirect "/" ∧ out.reply.cookies = [] := by
    intro f t us r
    unfold logout
    cases hstamp : logoutStamp decode f t us r with
    | error err =>
      exact ⟨_, by simp [tryCatch, tryCatchThe, MonadExcept.tryCatch, Except.tryCatch, Except.map,
        bind, Except.bind, pure, Except.pure]; rfl, by simp, by simp, rfl, rfl⟩
    | ok us1 =>
      exact ⟨_, by simp [tryCatch, tryCatchThe, MonadExcept.tryCatch, Except.tryCatch, Except.map,
        bind, Except.bind, pure, Except.pure]; rfl, by simp, by simp, rfl, rfl⟩
  obtain ⟨out, h1, h2, h3, h4, h5⟩ := key faults now users req
  exact ⟨out, h1, h2, h3, h4, h5, fun f2 t2 => key f2 t2 out.users (req.after out.reply)⟩

/-- After `save` of a document loaded by its `_id`, the lookup by that `_id`
returns the saved document. -/
theorem User.findById_write (users : List User) (i : Id) (u v : User)
    (hf : User.findById users i = some u) (hid : v.id = u.id) :
    User.findById (User.write users v) i = some v := by
  have hui : u.id = i := by
    have := List.find?_some hf
    simpa using this
  unfold User.findById User.write at *
  induction users with
  | nil => cases hf
  | cons a as ih =>
    rw [List.map_cons]
    by_cases hida : a.id = i
    · have hav : a.id = v.id := by rw [hida, hid, hui]
      rw [if_pos hav, List.find?_cons_of_pos _ (by simpa [hid] using hui)]
    · have hav : a.id ≠ v.id := by rw [hid, hui]; exact hida
      rw [List.find?_cons_of_neg _ (by simpa using hida)] at hf
      rw [if_neg hav, List.find?_cons_of_neg _ (by simpa using hida)]
      exact ih hf

/-- C11, as stated, fails: Dave is authenticated, the submitted student id and
contact number are well-formed and held by no other record, yet the record of
Dave is not saved with them: the stored email does not pass the validation
that `user.save()` runs, the answer is `Server Error` (not the duplicate
error) and the store is unchanged, so the record is still unverified. -/
theorem completeProfile_invalid_record_not_saved :
    User.findById [aliceUnverified, bobSocial, daveGmail] 3 = some daveGmail ∧
    nineDigits "210041239".data = true ∧ bdMobile "01512345679".data = true ∧
    (∀ x ∈ [aliceUnverified, bobSocial, daveGmail], x.id ≠ 3 →
      x.studentId ≠ some "210041239" ∧ x.contactNumber ≠ some "01512345679") ∧
    completeProfile { production := true } [aliceUnverified, bobSocial, daveGmail]
        { sessionUser := some 3, studentId := some "210041239",
          contactNumber := some "01512345679", file := none } =
      ([aliceUnverified, bobSocial, daveGmail],
        Reply.plain (Response.render 200 "complete-profile" (some "Server Error"))) ∧
    (User.findById
      (completeProfile { production := true } [aliceUnverified, bobSocial, daveGmail]
        { sessionUser := some 3, studentId := some "210041239",
          contactNumber := some "01512345679", file := none }).1 3).map (·.isVerified) =
      some false := by
  decide

/-- C11, amended: the uniqueness check of `completeProfile` leaves the caller's
own record out. For an authenticated caller whose record exists, a student id
of nine digits and a contact number of the mobile pattern, if no record other
than the caller's holds either value, the request is never answered with the
duplicate error, whether or not the caller's record already holds these
values. If the caller's stored record passes the validation of `user.save()`,
the answer is the redirect to the dashboard, the saved record has the
submitted student id and contact number and is verified, and the token cookie
of the caller is set again; if it does not, the answer is `Server Error` and
nothing is written. -/
theorem completeProfile_ignores_own_record (cfg : Config) (users : List User)
    (req : CompleteProfileReq) (uid : Id) (user : User) (sid cn : String)
    (hs : req.sessionUser = some uid) (hf : User.findById users uid = some user)
    (hsid : req.studentId = some sid) (hcn : req.contactNumber = some cn)
    (hv1 : nineDigits sid.data = true) (hv2 : bdMobile cn.data = true)
    (hothers : ∀ x ∈ users, x.id ≠ uid →
      x.studentId ≠ some sid ∧ x.contactNumber ≠ some cn) :
    (completeProfile cfg users req).2.response ≠
      Response.render 200 "complete-profile"
        (some "Student ID or Contact Number already in use") ∧
    (User.validate user = Except.ok () →
      (completeProfile cfg users req).2.response = Response.redirect "/dashboard" ∧
      (completeProfile cfg users req).2.cookies =
        [{ name := "token", value := { id := uid, expiresIn := "30d" }, httpOnly := true,
           secure := cfg.production, maxAge := 2592000000 }] ∧
      ∃ saved, User.findById (completeProfile cfg users req).1 uid = some saved ∧
        saved.id = uid ∧ saved.studentId = some sid ∧ saved.contactNumber = some cn ∧
        saved.isVerified = true ∧ saved.email = user.email) ∧
    (User.validate user ≠ Except.ok () →
      completeProfile cfg users req =
        (users, Reply.plain (Response.render 200 "complete-profile" (some "Server Error")))) := by
  have hui : user.id = uid := by
    have := List.find?_some hf
    simpa using this
  have hnone : users.find? (profileTaken req.studentId req.contactNumber user.id) = none := by
    rw [List.find?_eq_none]
    intro x hx
    by_cases hxi : x.id = uid
    · simp [profileTaken, hxi, hui]
    · have := hothers x hx hxi
      simp [profileTaken, hsid, hcn, this.1, this.2]
  have h1 : studentIdOk (some sid) = true := by simp [studentIdOk, hv1]
  have h2 : contactOk (some cn) = true := by simp [contactOk, hv2]
  -- the document handed to `save`
  obtain ⟨user2, hu2, hid2, hname2, hemail2, hsid2, hcn2, hver2⟩ :
      ∃ user2 : User,
        (match req.file with
          | some path => { user with studentId := some sid, contactNumber := some cn,
                                     isVerified := true, avatar := path }
          | none => { user with studentId := some sid, contactNumber := some cn,
                                isVerified := true }) = user2 ∧
        user2.id = user.id ∧ user2.name = user.name ∧ user2.email = user.email ∧
        user2.studentId = some sid ∧ user2.contactNumber = some cn ∧
        user2.isVerified = true := by
    cases req.file with
    | none => exact ⟨_, rfl, rfl, rfl, rfl, rfl, rfl, rfl⟩
    | some path => exact ⟨_, rfl, rfl, rfl, rfl, rfl, rfl, rfl⟩
  have hrun : completeProfile cfg users req =
      match User.save users user user2 with
      | Except.error _ =>
        (users, Reply.plain (Response.render 200 "complete-profile" (some "Server Error")))
      | Except.ok users1 =>
        (users1,
          { response := Response.redirect "/dashboard"
            cookies := [{ name := "token", value := generateToken user2.id, httpOnly := true,
                          secure := cfg.production, maxAge := 30 * 24 * 60 * 60 * 1000 }]
            cleared := []
            login := none }) := by
    unfold completeProfile
    rw [hsid, hcn] at hnone
    simp only [hs, hf, hsid, hcn, hnone, h1, h2, Bool.not_true, Bool.false_eq_true, if_false]
    rw [← hu2]
  have hval : User.validate user2 = User.validate user :=
    User.validate_congr _ _ hname2 hemail2
  have huniq : User.uniqueOnSave users user user2 = Except.ok () := by
    simp only [User.uniqueOnSave, hemail2, ne_eq, not_true_eq_false, decide_False,
      Bool.false_and, Bool.false_eq_true, if_false]
    rw [if_neg]
    intro hdup
    simp only [Bool.and_eq_true, decide_eq_true_eq, List.any_eq_true, decide_not,
      Bool.not_eq_true', decide_eq_false_iff_not] at hdup
    obtain ⟨-, x, hx, hxi, hxs⟩ := hdup
    rw [hsid2] at hxs
    exact (hothers x hx (by rw [← hui, ← hid2]; exact hxi)).1 hxs
  by_cases hv : User.validate user = Except.ok ()
  · have hsave := User.save_ok users user user2 (hval.trans hv) huniq
    rw [hsave] at hrun
    refine ⟨by rw [hrun]; simp, fun _ => ?_, fun hbad => absurd hv hbad⟩
    rw [hrun]
    refine ⟨rfl, by simp [generateToken, hid2, hui], user2, ?_, by rw [hid2, hui], hsid2, hcn2,
      hver2, hemail2⟩
    exact User.findById_write users uid user user2 hf hid2
  · obtain ⟨err, herr⟩ := User.save_error users user user2 (by rw [hval]; exact hv)
    rw [herr] at hrun
    refine ⟨by rw [hrun]; simp [Reply.plain], fun hok => absurd hok hv, fun _ => hrun⟩

/-- Witness of C11 (amended): Dave, whose record is valid, submits the student
id and contact number that his own record already holds, while other users
hold different ones. -/
theorem completeProfile_ignores_own_record_witness :
    (completeProfile { production := true } [aliceUnverified, bobSocial, daveSocial]
      { sessionUser := some 3, studentId := some "210041237",
        contactNumber := some "01512345678", file := none }).2.response =
      Response.redirect "/dashboard" ∧
    (completeProfile { production := true } [aliceUnverified, bobSocial, daveSocial]
      { sessionUser := some 3, studentId := some "210041237",
        contactNumber := some "01512345678", file := none }).2.cookies =
      [{ name := "token", value := { id := 3, expiresIn := "30d" }, httpOnly := true,
         secure := true, maxAge := 2592000000 }] ∧
    ∃ saved, User.findById
        (completeProfile { production := true } [aliceUnverified, bobSocial, daveSocial]
          { sessionUser := some 3, studentId := some "210041237",
            contactNumber := some "01512345678", file := none }).1 3 = some saved ∧
      saved.id = 3 ∧ saved.studentId = some "210041237" ∧
      saved.contactNumber = some "01512345678" ∧ saved.isVerified = true ∧
      saved.email = daveSocial.email :=
  (completeProfile_ignores_own_record { production := true }
    [aliceUnverified, bobSocial, daveSocial]
    { sessionUser := some 3, studentId := some "210041237",
      contactNumber := some "01512345678", file := none }
    3 daveSocial "210041237" "01512345678" rfl (by decide) rfl rfl (by decide) (by decide)
    (by decide)).2.1 (by decide)

/-- The decimal digits of a number of six digits. -/
theorem toDigits_six (n : Nat) (h1 : 100000 ≤ n) (h2 : n ≤ 999999) :
    Nat.toDigits 10 n =
      [Nat.digitChar (n / 100000), Nat.digitChar (n / 10000 % 10),
       Nat.digitChar (n / 1000 % 10), Nat.digitChar (n / 100 % 10),
       Nat.digitChar (n / 10 % 10), Nat.digitChar (n % 10)] := by
  have hfuel : n + 1 = (n - 5) + 1 + 1 + 1 + 1 + 1 + 1 := by omega
  have e1 : n / 10 ≠ 0 := by omega
  have e2 : n / 10 / 10 ≠ 0 := by omega
  have e3 : n / 10 / 10 / 10 ≠ 0 := by omega
  have e4 : n / 10 / 10 / 10 / 10 ≠ 0 := by omega
  have e5 : n / 10 / 10 / 10 / 10 / 10 ≠ 0 := by omega
  have e6 : n / 10 / 10 / 10 / 10 / 10 / 10 = 0 := by omega
  have d1 : n / 10 / 10 / 10 / 10 / 10 % 10 = n / 100000 := by omega
  have d2 : n / 10 / 10 / 10 / 10 % 10 = n / 10000 % 10 := by omega
  have d3 : n / 10 / 10 / 10 % 10 = n / 1000 % 10 := by omega
  have d4 : n / 10 / 10 % 10 = n / 100 % 10 := by omega
  unfold Nat.toDigits
  rw [hfuel]
  simp only [Nat.toDigitsCore, e1, e2, e3, e4, e5, e6, if_true, if_false, d1, d2, d3, d4]

/-- The character of a decimal digit is a digit. -/
theorem digitChar_isDigit : ∀ k, k < 10 → (Nat.digitChar k).isDigit = true := by decide

/-- The character of a decimal digit other than zero is not `0`. -/
theorem digitChar_ne_zero : ∀ k, k < 10 → k ≠ 0 → Nat.digitChar k ≠ '0' := by decide

/-- A number below `2 ^ k` has its logarithm below `k`. -/
theorem log2Upto_lt (fuel n k : Nat) (hk : 0 < k) (h : n < 2 ^ k) : log2Upto fuel n < k := by
  induction fuel with
  | zero => exact hk
  | succ f ih =>
    unfold log2Upto
    split_ifs with h1
    · exact (Nat.pow_lt_pow_iff_right (by norm_num : 1 < 2)).mp (lt_of_le_of_lt h1 h)
    · exact ih

/-- A number from `2 ^ k` on has its logarithm at least `k`, within the fuel. -/
theorem le_log2Upto (fuel n k : Nat) (hk : k ≤ fuel) (h : 2 ^ k ≤ n) : k ≤ log2Upto fuel n := by
  induction fuel with
  | zero => omega
  | succ f ih =>
    unfold log2Upto
    split_ifs with h1
    · exact hk
    · have : k < f + 1 :=
        (Nat.pow_lt_pow_iff_right (by norm_num : 1 < 2)).mp (lt_of_le_of_lt h (not_le.mp h1))
      exact ih (by omega)

/-- Rounding does not pass an integer that is less than one half below. -/
theorem roundHalfEven_le (q : ℚ) (n : ℤ) (h : q < n + 1 / 2) : roundHalfEven q ≤ n := by
  have hf1 : (⌊q⌋ : ℚ) ≤ q := Int.floor_le q
  have hf2 : q < ⌊q⌋ + 1 := Int.lt_floor_add_one q
  unfold roundHalfEven
  split_ifs with c1 c2 c3
  · have : ((⌊q⌋ : ℤ) : ℚ) < n + 1 := by linarith
    have : ⌊q⌋ < n + 1 := by exact_mod_cast this
    omega
  · have : ((⌊q⌋ : ℤ) : ℚ) < n := by linarith
    have : ⌊q⌋ < n := by exact_mod_cast this
    omega
  all_goals
    have : ((⌊q⌋ : ℤ) : ℚ) < n := by linarith
    have : ⌊q⌋ < n := by exact_mod_cast this
    omega

/-- Rounding does not fall under an integer that is less than one half above. -/
theorem le_roundHalfEven (q : ℚ) (n : ℤ) (h : (n : ℚ) - 1 / 2 < q) : n ≤ roundHalfEven q := by
  have hf1 : (⌊q⌋ : ℚ) ≤ q := Int.floor_le q
  have hf2 : q < ⌊q⌋ + 1 := Int.lt_floor_add_one q
  unfold roundHalfEven
  split_ifs with c1 c2 c3
  · have : (n : ℚ) < ⌊q⌋ + 1 := by linarith
    have : n < ⌊q⌋ + 1 := by exact_mod_cast this
    omega
  · have : (n : ℚ) < ⌊q⌋ + 2 := by linarith
    have : n < ⌊q⌋ + 2 := by exact_mod_cast this
    omega
  all_goals
    have : (n : ℚ) < ⌊q⌋ + 1 := by linarith
    have : n < ⌊q⌋ + 1 := by exact_mod_cast this
    omega

/-- Scaling a magnitude below `2 ^ a` by `2 ^ c` stays below `2 ^ (a + c)`. -/
theorem floor_scaled_lt (y : ℚ) (a c : ℕ) (h : |y| < 2 ^ a) :
    ⌊|y| * 2 ^ c⌋₊ < 2 ^ (a + c) := by
  have hp : (0 : ℚ) < 2 ^ c := pow_pos (by norm_num) c
  rw [Nat.floor_lt (mul_nonneg (abs_nonneg y) hp.le)]
  push_cast
  rw [pow_add]
  exact mul_lt_mul_of_pos_right h hp

/-- A magnitude below `2 ^ a` keeps at least `53 - a` binary places. -/
theorem fracBits_ge (x : ℚ) (a : ℕ) (h : |x| < 2 ^ a) : 53 - (a : ℤ) ≤ fracBits x := by
  have hl := log2Upto_lt 2100 _ (a + 1074) (by omega) (floor_scaled_lt x a 1074 h)
  unfold fracBits binade
  have : max ((log2Upto 2100 ⌊|x| * 2 ^ 1074⌋₊ : ℤ) - 1074) (-1022) ≤ (a : ℤ) - 1 := by
    apply max_le <;> omega
  omega

/-- A magnitude of at least `2 ^ (a - 1074)` keeps at most `1126 - a` binary places. -/
theorem fracBits_le (x : ℚ) (a : ℕ) (ha : a ≤ 2100) (h : 2 ^ a ≤ |x| * 2 ^ 1074) :
    fracBits x ≤ 1126 - (a : ℤ) := by
  have hn : 2 ^ a ≤ ⌊|x| * 2 ^ 1074⌋₊ := by
    apply Nat.le_floor
    push_cast
    exact h
  have hl := le_log2Upto 2100 _ a ha hn
  unfold fracBits binade
  have : (a : ℤ) - 1074 ≤ max ((log2Upto 2100 ⌊|x| * 2 ^ 1074⌋₊ : ℤ) - 1074) (-1022) := by
    apply le_max_of_le_left
    omega
  omega

/-- The rounded value when the number of binary places is `j ≥ 0`. -/
theorem roundDouble_eq (x : ℚ) (j : ℕ) (hj : fracBits x = j) :
    roundDouble x = roundHalfEven (x * 2 ^ j) / 2 ^ j := by
  unfold roundDouble
  rw [hj]
  simp

/-- Rounding `x` does not pass a number `B` of the same grid that is less
than half a step below `x`. -/
theorem roundDouble_le (x B : ℚ) (j : ℕ) (m : ℤ) (hj : fracBits x = j) (hB : B * 2 ^ j = m)
    (h : x < B + 1 / 2 ^ (j + 1)) : roundDouble x ≤ B := by
  rw [roundDouble_eq x j hj]
  have hp : (0 : ℚ) < 2 ^ j := by positivity
  have h1 : x * 2 ^ j < m + 1 / 2 := by
    have := mul_lt_mul_of_pos_right h hp
    have e : (B + 1 / 2 ^ (j + 1)) * 2 ^ j = m + 1 / 2 := by
      rw [add_mul, hB, pow_succ]
      field_simp
      ring
    linarith
  have h2 := roundHalfEven_le _ m h1
  rw [div_le_iff₀ hp, hB]
  exact_mod_cast h2

/-- Rounding `x` does not fall under a number `B` of the same grid that is
less than half a step above `x`. -/
theorem le_roundDouble (x B : ℚ) (j : ℕ) (m : ℤ) (hj : fracBits x = j) (hB : B * 2 ^ j = m)
    (h : B - 1 / 2 ^ (j + 1) < x) : B ≤ roundDouble x := by
  rw [roundDouble_eq x j hj]
  have hp : (0 : ℚ) < 2 ^ j := by positivity
  have h1 : (m : ℚ) - 1 / 2 < x * 2 ^ j := by
    have := mul_lt_mul_of_pos_right h hp
    have e : (B - 1 / 2 ^ (j + 1)) * 2 ^ j = m - 1 / 2 := by
      rw [sub_mul, hB, pow_succ]
      field_simp
      ring
    linarith
  have h2 := le_roundHalfEven _ m h1
  rw [le_div_iff₀ hp, hB]
  exact_mod_cast h2

/-- A number with `k` binary places lies on every finer grid. -/
theorem grid_of_le (x B : ℚ) (k : ℕ) (m : ℤ) (hk : (k : ℤ) ≤ fracBits x) (hB : B * 2 ^ k = m) :
    ∃ j : ℕ, fracBits x = j ∧ B * 2 ^ j = ((m * 2 ^ (j - k) : ℤ) : ℚ) ∧
      (0 : ℚ) < 1 / 2 ^ (j + 1) := by
  obtain ⟨j, hj⟩ : ∃ j : ℕ, fracBits x = j :=
    ⟨(fracBits x).toNat, (Int.toNat_of_nonneg (le_trans (Int.natCast_nonneg k) hk)).symm⟩
  refine ⟨j, hj, ?_, by positivity⟩
  rw [hj] at hk
  have hjk : k ≤ j := by exact_mod_cast hk
  obtain ⟨i, hi⟩ := Nat.exists_eq_add_of_le hjk
  have e : k + i - k = i := by omega
  rw [hi, e, pow_add, ← mul_assoc, hB]
  push_cast
  rfl

/-- Rounding is bounded above by every representable bound: a number `B`
with at most as many binary places as `x` keeps. -/
theorem roundDouble_le_of_le (x B : ℚ) (k : ℕ) (m : ℤ) (hk : (k : ℤ) ≤ fracBits x)
    (hB : B * 2 ^ k = m) (h : x ≤ B) : roundDouble x ≤ B := by
  obtain ⟨j, hj, hBj, hpos⟩ := grid_of_le x B k m hk hB
  exact roundDouble_le x B j _ hj hBj (by linarith)

/-- Rounding is bounded below by every representable bound. -/
theorem le_roundDouble_of_le (x B : ℚ) (k : ℕ) (m : ℤ) (hk : (k : ℤ) ≤ fracBits x)
    (hB : B * 2 ^ k = m) (h : B ≤ x) : B ≤ roundDouble x := by
  obtain ⟨j, hj, hBj, hpos⟩ := grid_of_le x B k m hk hB
  exact le_roundDouble x B j _ hj hBj (by linarith)

/-- The greatest binary64 number below one is `1 - 2 ^ -53`. -/
theorem double_below_one (r : ℚ) (h0 : 0 ≤ r) (h1 : r < 1) (hd : roundDouble r = r) :
    r ≤ 1 - 1 / 2 ^ 53 := by
  by_cases hhalf : r < 1 / 2
  · have : (1 : ℚ) / 2 ^ 53 ≤ 1 / 2 := by norm_num
    linarith only [hhalf, this]
  · have habs : |r| = r := abs_of_nonneg h0
    have hlow : (2 : ℚ) ^ 1073 ≤ r * 2 ^ 1074 := by
      have e : (2 : ℚ) ^ 1074 = 2 ^ 1073 * 2 := by rw [← pow_succ]
      have hp : (0 : ℚ) < 2 ^ 1073 := by positivity
      rw [e]
      nlinarith only [hhalf, hp]
    have hge : (53 : ℤ) - ((0 : ℕ) : ℤ) ≤ fracBits r :=
      fracBits_ge r 0 (by rw [habs, pow_zero]; exact h1)
    have hle : fracBits r ≤ 1126 - ((1073 : ℕ) : ℤ) :=
      fracBits_le r 1073 (by norm_num) (by rw [habs]; exact hlow)
    have hj : fracBits r = ((53 : ℕ) : ℤ) :=
      le_antisymm (le_trans hle (by norm_num)) (le_trans (by norm_num) hge)
    rw [roundDouble_eq r 53 hj] at hd
    have hp : (0 : ℚ) < 2 ^ 53 := by positivity
    rw [div_eq_iff hp.ne.symm] at hd
    have hlt : ((roundHalfEven (r * 2 ^ 53) : ℤ) : ℚ) < ((2 ^ 53 : ℤ) : ℚ) := by
      rw [hd]
      push_cast
      nlinarith only [h1, hp]
    have hlt2 : roundHalfEven (r * 2 ^ 53) < 2 ^ 53 := by exact_mod_cast hlt
    have hle2 : roundHalfEven (r * 2 ^ 53) ≤ 2 ^ 53 - 1 := Int.le_sub_one_of_lt hlt2
    have hle3 : ((roundHalfEven (r * 2 ^ 53) : ℤ) : ℚ) ≤ 2 ^ 53 - 1 := by exact_mod_cast hle2
    rw [hd] at hle3
    have e : (1 : ℚ) - 1 / 2 ^ 53 = (2 ^ 53 - 1) / 2 ^ 53 := by norm_num
    rw [e, le_div_iff₀ hp]
    exact hle3

/-- Numbers below `2 ^ 20` keep at least 33 binary places. -/
theorem fracBits_small (x : ℚ) (h0 : 0 ≤ x) (h : x < 2 ^ 20) : (33 : ℤ) ≤ fracBits x := by
  have := fracBits_ge x 20 (by rw [abs_of_nonneg h0]; exact h)
  push_cast at this
  omega

/-- The rounded product of line 59 lies between `0` and `900000 - 2 ^ -33`. -/
theorem product_bounds (r : ℚ) (h0 : 0 ≤ r) (h1 : r ≤ 1 - 1 / 2 ^ 53) :
    0 ≤ roundDouble (r * 900000) ∧ roundDouble (r * 900000) ≤ 900000 - 1 / 2 ^ 33 := by
  have hx0 : 0 ≤ r * 900000 := mul_nonneg h0 (by norm_num)
  have hx1 : r * 900000 ≤ 900000 - 900000 / 2 ^ 53 := by linarith only [h1]
  have hx2 : r * 900000 < 2 ^ 20 := by
    have : (900000 : ℚ) < 2 ^ 20 := by norm_num
    have : (0 : ℚ) < 900000 / 2 ^ 53 := by positivity
    linarith
  have hfb := fracBits_small _ hx0 hx2
  refine ⟨le_roundDouble_of_le _ 0 0 0 (by push_cast; omega) (by simp) hx0, ?_⟩
  by_cases hbig : r * 900000 < 2 ^ 19
  · have h2 : roundDouble (r * 900000) ≤ 2 ^ 19 :=
      roundDouble_le_of_le _ (2 ^ 19) 0 (2 ^ 19) (by push_cast; omega) (by norm_num) hbig.le
    have : (2 : ℚ) ^ 19 ≤ 900000 - 1 / 2 ^ 33 := by norm_num
    linarith
  · have hle : fracBits (r * 900000) ≤ 1126 - ((1093 : ℕ) : ℤ) := by
      apply fracBits_le _ 1093 (by norm_num)
      rw [abs_of_nonneg hx0]
      have e : (2 : ℚ) ^ 1093 = 2 ^ 19 * 2 ^ 1074 := by rw [← pow_add]
      rw [e]
      exact mul_le_mul_of_nonneg_right (not_lt.mp hbig) (by positivity)
    have hj : fracBits (r * 900000) = ((33 : ℕ) : ℤ) := by push_cast at hle ⊢; omega
    apply roundDouble_le _ _ 33 (900000 * 2 ^ 33 - 1) hj (by norm_num)
    have : (900000 : ℚ) - 900000 / 2 ^ 53 < 900000 - 1 / 2 ^ 33 + 1 / 2 ^ (33 + 1) := by norm_num
    linarith

/-- The number computed at line 59 from a binary64 draw lies between 100000
and 999999, and is the exact value `⌊100000 + 900000 * rnd⌋` or one more. -/
theorem otp_number_range (rnd : ℚ) (h0 : 0 ≤ rnd) (h1 : rnd < 1) (hd : roundDouble rnd = rnd) :
    100000 ≤ otpNumber rnd ∧ otpNumber rnd ≤ 999999 ∧
      (otpNumber rnd = ⌊(100000 : ℚ) + 900000 * rnd⌋ ∨
        otpNumber rnd = ⌊(100000 : ℚ) + 900000 * rnd⌋ + 1) := by
  have hr := double_below_one rnd h0 h1 hd
  obtain ⟨hp0, hp1⟩ := product_bounds rnd h0 hr
  have hx0 : 0 ≤ rnd * 900000 := mul_nonneg h0 (by norm_num)
  have hx2 : rnd * 900000 < 2 ^ 20 := by
    have : (900000 : ℚ) < 2 ^ 20 := by norm_num
    linarith only [h1, this]
  have hfx := fracBits_small _ hx0 hx2
  have hy0 : (0 : ℚ) ≤ 100000 + roundDouble (rnd * 900000) := by linarith
  have hy2 : 100000 + roundDouble (rnd * 900000) < 2 ^ 20 := by
    have : (1000000 : ℚ) < 2 ^ 20 := by norm_num
    have : (0 : ℚ) < 1 / 2 ^ 33 := by positivity
    linarith
  have hfy := fracBits_small _ hy0 hy2
  have hs0 : (100000 : ℚ) ≤ roundDouble (100000 + roundDouble (rnd * 900000)) :=
    le_roundDouble_of_le _ 100000 0 100000 (by push_cast; omega) (by norm_num) (by linarith)
  have hs1 : roundDouble (100000 + roundDouble (rnd * 900000)) ≤ 1000000 - 1 / 2 ^ 33 :=
    roundDouble_le_of_le _ _ 33 (1000000 * 2 ^ 33 - 1) (by push_cast; omega) (by norm_num)
      (by linarith)
  have hn1 : ((⌊(100000 : ℚ) + 900000 * rnd⌋ : ℤ) : ℚ) ≤ 100000 + 900000 * rnd := Int.floor_le _
  have hn2 : (100000 : ℚ) + 900000 * rnd < ⌊(100000 : ℚ) + 900000 * rnd⌋ + 1 :=
    Int.lt_floor_add_one _
  have hq0 : ((⌊(100000 : ℚ) + 900000 * rnd⌋ - 100000 : ℤ) : ℚ) ≤ roundDouble (rnd * 900000) :=
    le_roundDouble_of_le _ _ 0 (⌊(100000 : ℚ) + 900000 * rnd⌋ - 100000) (by push_cast; omega)
      (by simp) (by push_cast; linarith)
  have hq1 : roundDouble (rnd * 900000) ≤ ((⌊(100000 : ℚ) + 900000 * rnd⌋ + 1 - 100000 : ℤ) : ℚ) :=
    roundDouble_le_of_le _ _ 0 (⌊(100000 : ℚ) + 900000 * rnd⌋ + 1 - 100000) (by push_cast; omega)
      (by simp) (by push_cast; linarith)
  have ht0 : ((⌊(100000 : ℚ) + 900000 * rnd⌋ : ℤ) : ℚ) ≤
      roundDouble (100000 + roundDouble (rnd * 900000)) :=
    le_roundDouble_of_le _ _ 0 ⌊(100000 : ℚ) + 900000 * rnd⌋ (by push_cast; omega)
      (by simp) (by push_cast at hq0; linarith)
  have ht1 : roundDouble (100000 + roundDouble (rnd * 900000)) ≤
      ((⌊(100000 : ℚ) + 900000 * rnd⌋ + 1 : ℤ) : ℚ) :=
    roundDouble_le_of_le _ _ 0 (⌊(100000 : ℚ) + 900000 * rnd⌋ + 1) (by push_cast; omega)
      (by simp) (by push_cast at hq1 ⊢; linarith)
  have a1 : (100000 : ℤ) ≤ otpNumber rnd := Int.le_floor.mpr (by push_cast; exact hs0)
  have a2 : otpNumber rnd < 1000000 := by
    apply Int.floor_lt.mpr
    have : (0 : ℚ) < 1 / 2 ^ 33 := by positivity
    push_cast
    linarith
  have a3 : ⌊(100000 : ℚ) + 900000 * rnd⌋ ≤ otpNumber rnd := Int.le_floor.mpr ht0
  have a4 : otpNumber rnd < ⌊(100000 : ℚ) + 900000 * rnd⌋ + 2 := by
    apply Int.floor_lt.mpr
    push_cast at ht1 ⊢
    linarith
  refine ⟨a1, by omega, by omega⟩

/-- The hook before `save` touches the password only. -/
theorem User.preSave_fields (hash : String → String) (u : User) :
    (User.preSave hash u).otp = u.otp ∧ (User.preSave hash u).otpExpires = u.otpExpires ∧
      (User.preSave hash u).isVerified = u.isVerified ∧ (User.preSave hash u).email = u.email ∧
      (User.preSave hash u).studentId = u.studentId := by
  unfold User.preSave
  cases u.password with
  | none => exact ⟨rfl, rfl, rfl, rfl, rfl⟩
  | some pw =>
    by_cases h : pw = ""
    · simp [h]
    · simp [h]

/-- What `User.create` returns when it returns: the store with the new
document appended, the new document keeping the code, the expiry, the
verification flag and the email it was given. -/
theorem User.create_ok (hash : String → String) (users users1 : List User) (doc u : User)
    (h : User.create hash users doc = Except.ok (users1, u)) :
    users1 = users ++ [u] ∧ u.otp = doc.otp ∧ u.otpExpires = doc.otpExpires ∧
      u.isVerified = doc.isVerified ∧ u.email = doc.email := by
  unfold User.create at h
  cases hv : User.validate doc with
  | error err => simp [hv, bind, Except.bind] at h
  | ok _ =>
    cases hq : User.uniqueOk users
        (User.preSave hash { doc with id := freshId (users.map (·.id)) }) with
    | error err => simp [hv, hq, bind, Except.bind] at h
    | ok _ =>
      simp only [hv, hq, bind, Except.bind, pure, Except.pure, Except.ok.injEq,
        Prod.mk.injEq] at h
      obtain ⟨h1, h2⟩ := h
      have hf := User.preSave_fields hash { doc with id := freshId (users.map (·.id)) }
      rw [h2] at h1 hf
      exact ⟨h1.symm, hf.1, hf.2.1, hf.2.2.1, hf.2.2.2.1⟩

/-- A document that validates and meets no duplicate is inserted. -/
theorem User.create_succeeds (hash : String → String) (users : List User) (doc : User)
    (hname : doc.name ≠ "") (hpat : emailPattern doc.email = true)
    (hnew : ∀ x ∈ users, x.email ≠ doc.email ∧ x.studentId ≠ doc.studentId) :
    ∃ u, User.create hash users doc = Except.ok (users ++ [u], u) := by
  have hne : doc.email ≠ "" := by
    intro h
    rw [h] at hpat
    exact absurd hpat (by decide)
  have hv : User.validate doc = Except.ok () := by
    simp [User.validate, hname, hne, hpat]
  have hf := User.preSave_fields hash { doc with id := freshId (users.map (·.id)) }
  have hq : User.uniqueOk users
      (User.preSave hash { doc with id := freshId (users.map (·.id)) }) = Except.ok () := by
    unfold User.uniqueOk
    rw [hf.2.2.2.1, hf.2.2.2.2]
    have h1 : (users.any fun x => decide (x.email = doc.email)) = false := by
      rw [List.any_eq_false]
      intro x hx
      simpa using (hnew x hx).1
    have h2 : (users.any fun x => x.studentId.isSome && decide (x.studentId = doc.studentId)) =
        false := by
      rw [List.any_eq_false]
      intro x hx
      simp [(hnew x hx).2]
    simp [h1, h2]
  refine ⟨User.preSave hash { doc with id := freshId (users.map (·.id)) }, ?_⟩
  simp only [User.create, hv, hq, bind, Except.bind, pure, Except.pure]

/-- C12, counterexample: for the draw `drawRoundedUp`, a binary64 number in
`[0, 1)`, the exact value `⌊100000 + 900000 * r⌋` is 100029, while line 59,
which rounds the product and the sum, computes 100030, and the user that
`register` persists carries the code `100030`. -/
theorem register_otp_code_not_exact_floor :
    (0 : ℚ) ≤ drawRoundedUp ∧ drawRoundedUp < 1 ∧ roundDouble drawRoundedUp = drawRoundedUp ∧
    ⌊(100000 : ℚ) + 900000 * drawRoundedUp⌋ = 100029 ∧
    otpNumber drawRoundedUp = 100030 ∧ generateOtp drawRoundedUp = "100030" ∧
    (register (fun pw => "hash:" ++ pw) 5000 drawRoundedUp true []
      (registerReqWith "carol@iut-dhaka.edu")).1.map (fun u => (u.email, u.otp)) =
      [("carol@iut-dhaka.edu", some "100030")] := by
  decide!

/-- C12, amended: for a draw `rnd` that is a binary64 number with
`0 ≤ rnd < 1`, the one-time code of `register` is the decimal text of the
number line 59 computes, the floor of the rounded sum of 100000 and the
rounded product `rnd * 900000`; that number is `⌊100000 + 900000 * rnd⌋` or
one more and lies from 100000 to 999999, so the code has exactly six
characters, all digits, the first not `0`; whenever `register` writes to the
store it appends one user whose code is that text, whose expiry is
`now + 300000` and who is not verified; and it does so for every request with
a matching email, a name, a well-formed student id and contact number, and no
user with the same email or student id. -/
theorem register_otp_code (hash : String → String) (now : Nat) (rnd : ℚ) (mailOk : Bool)
    (users : List User) (req : RegisterReq) (h0 : 0 ≤ rnd) (h1 : rnd < 1)
    (hd : roundDouble rnd = rnd) :
    (∃ n : ℕ, (n : ℤ) = ⌊roundDouble (100000 + roundDouble (rnd * 900000))⌋ ∧
      ((n : ℤ) = ⌊(100000 : ℚ) + 900000 * rnd⌋ ∨
        (n : ℤ) = ⌊(100000 : ℚ) + 900000 * rnd⌋ + 1) ∧
      100000 ≤ n ∧ n ≤ 999999 ∧
      generateOtp rnd = toString n ∧ (generateOtp rnd).length = 6 ∧
      (generateOtp rnd).data.all Char.isDigit = true ∧
      (generateOtp rnd).data.head? ≠ some '0') ∧
    ((register hash now rnd mailOk users req).1 = users ∨
      ∃ u, (register hash now rnd mailOk users req).1 = users ++ [u] ∧
        u.otp = some (generateOtp rnd) ∧ u.otpExpires = some (now + 300000) ∧
        u.isVerified = false) ∧
    (∀ e nm, req.email = some e → emailPattern e = true → req.name = some nm → nm ≠ "" →
      studentIdOk req.studentId = true → contactOk req.contactNumber = true →
      (∀ x ∈ users, x.email ≠ e ∧ x.studentId ≠ req.studentId) →
      ∃ u, (register hash now rnd mailOk users req).1 = users ++ [u] ∧ u.email = e ∧
        u.otp = some (generateOtp rnd) ∧ u.otpExpires = some (now + 300000) ∧
        u.isVerified = false) := by
  obtain ⟨ha, hb, hc⟩ := otp_number_range rnd h0 h1 hd
  have hn : (((otpNumber rnd).toNat : ℕ) : ℤ) = otpNumber rnd :=
    Int.toNat_of_nonneg (le_trans (by norm_num) ha)
  have hlo : 100000 ≤ (otpNumber rnd).toNat := by omega
  have hhi : (otpNumber rnd).toNat ≤ 999999 := by omega
  have hdata : (generateOtp rnd).data = Nat.toDigits 10 (otpNumber rnd).toNat := rfl
  refine ⟨⟨(otpNumber rnd).toNat, hn, ?_, hlo, hhi, rfl, ?_, ?_, ?_⟩, ?_, ?_⟩
  · rw [hn]
    exact hc
  · show (generateOtp rnd).data.length = 6
    rw [hdata, toDigits_six _ hlo hhi]
    rfl
  · rw [hdata, toDigits_six _ hlo hhi]
    simp only [List.all_cons, List.all_nil, Bool.and_true, Bool.and_eq_true]
    refine ⟨?_, ?_, ?_, ?_, ?_, ?_⟩ <;> exact digitChar_isDigit _ (by omega)
  · rw [hdata, toDigits_six _ hlo hhi]
    simp only [List.head?_cons, ne_eq, Option.some.injEq]
    exact digitChar_ne_zero _ (by omega) (by omega)
  · cases he : req.email with
    | none =>
      unfold register
      simp only [he]
      exact Or.inl trivial
    | some e =>
      unfold register
      simp only [he]
      cases hd : endsWithIutDomain e
      · exact Or.inl rfl
      · cases hs : studentIdOk req.studentId
        · exact Or.inl rfl
        · cases hc : contactOk req.contactNumber
          · exact Or.inl rfl
          · simp only [Bool.not_true, Bool.false_eq_true, if_false]
            split
            · exact Or.inl rfl
            · split
              · exact Or.inl rfl
              · rename_i users1 u hcreate
                obtain ⟨hus, ho, hx, hv, -⟩ := User.create_ok hash users users1 _ u hcreate
                have hstore : users1 = users ++ [u] := hus
                split_ifs
                · exact Or.inr ⟨u, hstore, ho, hx, hv⟩
                · exact Or.inr ⟨u, hstore, ho, hx, hv⟩
  · intro e nm he hpat hname hnm hsid hcn hnew
    have hdom : endsWithIutDomain e = true := by
      unfold emailPattern at hpat
      exact (Bool.and_eq_true _ _ ▸ hpat).1
    have hfind : (users.find? fun u =>
        decide (u.email = e) || decide (u.studentId = req.studentId)) = none := by
      rw [List.find?_eq_none]
      intro x hx
      simp [(hnew x hx).1, (hnew x hx).2]
    obtain ⟨u, hu⟩ := User.create_succeeds hash users
      { id := 0, name := req.name.getD "", email := e, password := req.password,
        studentId := req.studentId, contactNumber := req.contactNumber, googleId := none,
        githubId := none, isAdmin := false,
        avatar := match req.file with
          | some path => path
          | none => "https://ui-avatars.com/api/?name=" ++ jsText req.name ++
              "&background=0b0e11&color=fff&size=128",
        otp := some (generateOtp rnd), otpExpires := some (now + 5 * 60 * 1000),
        isVerified := false, createdAt := now, lastLogout := none }
      (by simp [hname, hnm]) hpat hnew
    obtain ⟨-, ho, hx, hv, hem⟩ := User.create_ok hash users _ _ u hu
    refine ⟨u, ?_, hem, ho, hx, hv⟩
    unfold register
    simp only [he, hdom, hsid, hcn, hfind, Bool.not_true, Bool.false_eq_true, if_false, hu]
    split_ifs <;> rfl

/-- Witness of C12: Carol registers on an empty store at time 5000 with the
draw one half, a binary64 number; the persisted user carries the code
`550000`, the expiry 305000 and is not verified. -/
theorem register_otp_code_witness :
    (0 : ℚ) ≤ 1 / 2 ∧ (1 / 2 : ℚ) < 1 ∧ roundDouble (1 / 2) = 1 / 2 ∧
    generateOtp (1 / 2) = "550000" ∧
    ∃ u, (register (fun pw => "hash:" ++ pw) 5000 (1 / 2) true []
        (registerReqWith "carol@iut-dhaka.edu")).1 = [] ++ [u] ∧
      u.email = "carol@iut-dhaka.edu" ∧ u.otp = some (generateOtp (1 / 2)) ∧
      u.otpExpires = some (5000 + 300000) ∧ u.isVerified = false :=
  ⟨by norm_num, by norm_num, by decide!, by decide!,
    (register_otp_code (fun pw => "hash:" ++ pw) 5000 (1 / 2) true []
      (registerReqWith "carol@iut-dhaka.edu") (by norm_num) (by norm_num) (by decide!)).2.2
      "carol@iut-dhaka.edu" "Carol" rfl (by decide) rfl (by decide) (by decide) (by decide)
      (by simp)⟩

/-- In a collection with unique `_id`s, once the listing with an `_id` is
removed no listing has that `_id`. -/
theorem Product.findById_deleteOne {products : List Product}
    (hn : (products.map (·.id)).Nodup) {p : Product} {i : Id}
    (hf : Product.findById products i = some p) :
    Product.findById (Product.deleteOne products p) i = none := by
  have hpi : p.id = i := by
    have := List.find?_some hf
    simpa using this
  unfold Product.findById Product.deleteOne at *
  rw [hpi]
  clear hpi
  induction products with
  | nil => rfl
  | cons a as ih =>
    rw [List.map_cons, List.nodup_cons] at hn
    by_cases ha : a.id = i
    · rw [List.eraseP_cons_of_pos (by simpa using ha), List.find?_eq_none]
      intro x hx
      have : x.id ≠ i := fun e => hn.1 (by rw [ha, ← e]; exact List.mem_map_of_mem (·.id) hx)
      simpa using this
    · rw [List.find?_cons_of_neg _ (by simpa using ha)] at hf
      rw [List.eraseP_cons_of_neg (by simpa using ha),
        List.find?_cons_of_neg _ (by simpa using ha)]
      exact ih hn.2 hf

/-- C13: in a store with unique `_id`s, `deleteProduct` removes the listing
with the given `_id` exactly when it exists and its owner is the caller; then
no other listing is removed and the caller is redirected to the dashboard. A
caller who is not the owner gets the JSON denial with status 401 and the
store is unchanged; for an `_id` without a listing the answer is the JSON
error with status 404 and the store is unchanged; the orders are never touched. -/
theorem deleteProduct_owner_only (m : Market) (userId i : Id) (hwf : m.WF) :
    ((Product.findById m.products i ≠ none ∧
        Product.findById (deleteProduct m userId (some i)).1.products i = none) ↔
      ∃ p, Product.findById m.products i = some p ∧ p.user = userId) ∧
    (∀ p, Product.findById m.products i = some p → p.user = userId →
      (deleteProduct m userId (some i)).2 = Response.redirect "/dashboard" ∧
      (deleteProduct m userId (some i)).1.products = Product.deleteOne m.products p ∧
      (deleteProduct m userId (some i)).1.products.length + 1 = m.products.length ∧
      ∀ q ∈ m.products, q.id ≠ i → q ∈ (deleteProduct m userId (some i)).1.products) ∧
    (∀ p, Product.findById m.products i = some p → p.user ≠ userId →
      deleteProduct m userId (some i) = (m, Response.json 401 false "Not authorized")) ∧
    (Product.findById m.products i = none →
      deleteProduct m userId (some i) = (m, Response.json 404 false "Product not found")) ∧
    (deleteProduct m userId (some i)).1.orders = m.orders := by
  cases hf : Product.findById m.products i with
  | none =>
    have hrun : deleteProduct m userId (some i) =
        (m, Response.json 404 false "Product not found") := by
      simp [deleteProduct, hf]
    refine ⟨?_, ?_, ?_, ?_, ?_⟩
    · constructor
      · rintro ⟨h, -⟩; exact absurd rfl h
      · rintro ⟨p, hp, -⟩; cases hp
    · intro p hp; cases hp
    · intro p hp; cases hp
    · intro _; exact hrun
    · rw [hrun]
  | some p =>
    have hpi : p.id = i := by
      have := List.find?_some hf
      simpa using this
    by_cases hu : p.user = userId
    · have hrun : deleteProduct m userId (some i) =
          ({ m with products := Product.deleteOne m.products p },
            Response.redirect "/dashboard") := by
        simp [deleteProduct, hf, hu]
      have hmem : p ∈ m.products := List.mem_of_find?_eq_some hf
      refine ⟨?_, ?_, ?_, ?_, ?_⟩
      · constructor
        · intro _; exact ⟨p, rfl, hu⟩
        · intro _
          refine ⟨by simp, ?_⟩
          rw [hrun]
          exact Product.findById_deleteOne hwf.1 hf
      · intro q hq _
        cases hq
        rw [hrun]
        refine ⟨rfl, rfl, ?_, ?_⟩
        · show (Product.deleteOne m.products p).length + 1 = m.products.length
          unfold Product.deleteOne
          have hlen := List.length_eraseP_of_mem (p := fun x => decide (x.id = p.id)) hmem
            (by simp)
          have hpos : 0 < m.products.length := List.length_pos_of_mem hmem
          omega
        · intro x hx hxi
          show x ∈ Product.deleteOne m.products p
          unfold Product.deleteOne
          exact (List.mem_eraseP_of_neg (by simpa [hpi] using hxi)).mpr hx
      · intro q hq hne; cases hq; exact absurd hu hne
      · intro h; cases h
      · rw [hrun]
    · have hrun : deleteProduct m userId (some i) =
          (m, Response.json 401 false "Not authorized") := by
        simp [deleteProduct, hf, hu]
      refine ⟨?_, ?_, ?_, ?_, ?_⟩
      · constructor
        · rintro ⟨-, h⟩
          rw [hrun, hf] at h
          cases h
        · rintro ⟨q, hq, hqu⟩; cases hq; exact absurd hqu hu
      · intro q hq hqu; cases hq; exact absurd hqu hu
      · intro q _ _; exact hrun
      · intro h; cases h
      · rw [hrun]

/-- Witness of C13: the owner (user 2) deletes the `Books` listing. -/
theorem deleteProduct_owner_only_witness :
    (deleteProduct booksMarket 2 (some 1)).1.products = [] ∧
    (deleteProduct booksMarket 2 (some 1)).2 = Response.redirect "/dashboard" ∧
    deleteProduct booksMarket 1 (some 1) =
      (booksMarket, Response.json 401 false "Not authorized") :=
  ⟨((deleteProduct_owner_only booksMarket 2 1 (by decide)).2.1
      (booksListing "Available") (by decide) rfl).2.1.trans (by decide),
    ((deleteProduct_owner_only booksMarket 2 1 (by decide)).2.1
      (booksListing "Available") (by decide) rfl).1,
    (deleteProduct_owner_only booksMarket 1 1 (by decide)).2.2.1
      (booksListing "Available") (by decide) (by decide)⟩

/-- C15: `login` sets no token cookie for a user who is not verified: the
found user being unverified, no cookie is set and no session is established,
and with a correct password the response is the redirect to the verification
page; the token cookie is set exactly when email and password are given, a
user with the email exists, has a password hash, the password matches it,
and the user is verified. -/
theorem login_requires_verified (cfg : Config) (compare : String → String → Bool)
    (users : List User) (req : LoginReq) :
    (∀ u, User.findByEmail users (jsText req.email) = some u → u.isVerified = false →
      (login cfg compare users req).cookies = [] ∧ (login cfg compare users req).login = none) ∧
    (∀ u, User.findByEmail users (jsText req.email) = some u → u.isVerified = false →
      falsy req.email = false → falsy req.password = false → falsy u.password = false →
      compare (jsText req.password) (jsText u.password) = true →
      login cfg compare users req =
        Reply.plain (Response.redirect ("/auth/verify?email=" ++ u.email))) ∧
    ((login cfg compare users req).cookies ≠ [] ↔
      falsy req.email = false ∧ falsy req.password = false ∧
        ∃ u, User.findByEmail users (jsText req.email) = some u ∧ falsy u.password = false ∧
          compare (jsText req.password) (jsText u.password) = true ∧ u.isVerified = true) := by
  refine ⟨?_, ?_, ?_⟩
  · intro u hf hv
    cases he : falsy req.email <;> cases hp : falsy req.password <;>
      cases hpw : falsy u.password <;>
      cases hc : compare (jsText req.password) (jsText u.password) <;>
      simp [login, hf, hv, he, hp, hpw, hc, Reply.plain]
  · intro u hf hv he hp hpw hc
    simp [login, hf, hv, he, hp, hpw, hc]
  · cases he : falsy req.email
    · cases hp : falsy req.password
      · cases hf : User.findByEmail users (jsText req.email) with
        | none => simp [login, he, hp, hf, Reply.plain]
        | some u =>
          cases hpw : falsy u.password
          · cases hc : compare (jsText req.password) (jsText u.password)
            · simp [login, he, hp, hf, hpw, hc, Reply.plain]
            · cases hv : u.isVerified
              · simp [login, he, hp, hf, hpw, hc, hv, Reply.plain]
              · simp [login, he, hp, hf, hpw, hc, hv, Reply.plain]
          · simp [login, he, hp, hf, hpw, Reply.plain]
      · simp [login, he, hp, Reply.plain]
    · simp [login, he, Reply.plain]

/-- C14, as stated, fails: with one `ACTIVE` order and two listings that each
satisfy it, in the interleaving where both executions query before either
saves, each execution has the order among its selected ones, both perform a
fill write on it and the store applies both: two fill writes, none rejected. -/
theorem race_two_fill_writes :
    createMatch raceListingA raceOrder = true ∧
    createMatch raceListingB raceOrder = true ∧
    (Race.exec (fun _ => true) raceListingA raceListingB (Race.init raceMarket)
      racySchedule).runA = CreateRun.finished (Response.redirect "/dashboard") ∧
    (Race.exec (fun _ => true) raceListingA raceListingB (Race.init raceMarket)
      racySchedule).runB = CreateRun.finished (Response.redirect "/dashboard") ∧
    (Race.exec (fun _ => true) raceListingA raceListingB (Race.init raceMarket)
      racySchedule).fills = [(false, 1), (true, 1)] ∧
    (Race.exec (fun _ => true) raceListingA raceListingB (Race.init raceMarket)
      racySchedule).fillWrites 1 = 2 ∧
    (Race.exec (fun _ => true) raceListingA raceListingB (Race.init raceMarket)
      racySchedule).fillWrites 1 ≠ 1 ∧
    orderStatus (Race.exec (fun _ => true) raceListingA raceListingB (Race.init raceMarket)
      racySchedule).market.orders 1 = some "FILLED" := by
  decide

/-- In a collection with unique `_id`s, a query selects a persisted order once
if it satisfies the filter, and not at all otherwise. -/
theorem filter_count_id {orders : List LimitOrder} (hn : (orders.map (·.id)).Nodup)
    (P : LimitOrder → Bool) {y : LimitOrder} (hy : y ∈ orders) :
    ((orders.filter P).map (·.id)).count y.id = if P y then 1 else 0 := by
  have hsub : ((orders.filter P).map (·.id)).Nodup :=
    List.Nodup.sublist (List.Sublist.map _ (List.filter_sublist orders)) hn
  by_cases hP : P y = true
  · rw [if_pos hP]
    exact List.count_eq_one_of_mem hsub
      (List.mem_map_of_mem (·.id) (List.mem_filter.mpr ⟨hy, hP⟩))
  · rw [if_neg hP]
    apply List.count_eq_zero_of_not_mem
    intro hmem
    obtain ⟨x, hx, hid⟩ := List.mem_map.mp hmem
    have hx2 := List.mem_filter.mp hx
    exact hP (order_eq_of_id_eq hn hx2.1 hy hid ▸ hx2.2)

/-- The write of `save` keeps the `_id`s of the collection. -/
theorem LimitOrder.save_ids (orders : List LimitOrder) (z : LimitOrder) :
    (LimitOrder.save orders z).map (·.id) = orders.map (·.id) := by
  unfold LimitOrder.save
  rw [List.map_map]
  apply List.map_congr_left
  intro x _
  simp only [Function.comp_apply]
  split <;> rfl

/-- The fill writes of an execution after one more call. -/
theorem count_append_fillEntry (fills : List (Bool × Id)) (w w2 : Bool) (x : Option Id)
    (i : Id) :
    (fills ++ fillEntry w x).count (w2, i) =
      fills.count (w2, i) + if w = w2 ∧ x = some i then 1 else 0 := by
  rw [List.count_append]
  cases x with
  | none => simp [fillEntry]
  | some j =>
    by_cases h : w = w2 ∧ j = i
    · obtain ⟨h1, h2⟩ := h
      subst h1 h2
      simp [fillEntry]
    · have hne : ((w, j) == (w2, i)) = false := by
        simp only [beq_eq_false_iff_ne, ne_eq, Prod.mk.injEq]
        exact h
      simp [fillEntry, List.count_cons, hne]
      exact fun a b => h ⟨a, b⟩

/-- The condition `RunInv` is kept when the other execution writes more. -/
theorem RunInv.mono {i : Id} {run : CreateRun} {mine other other1 : Nat}
    (h : RunInv i run mine other) (hle : other ≤ other1) : RunInv i run mine other1 := by
  refine ⟨h.1, h.2.1, fun hq => ?_⟩
  rcases h.2.2 hq with h1 | h1
  · exact Or.inl h1
  · exact Or.inr (by omega)

/-- An order that satisfies the filter of the query is `ACTIVE`. -/
theorem createMatch_active {req : CreateProductReq} {o : LimitOrder}
    (hm : createMatch req o = true) : o.status = "ACTIVE" := by
  simp only [createMatch, Bool.and_eq_true, decide_eq_true_eq] at hm
  exact hm.1.2

/-- An order that is `FILLED` does not satisfy the filter of the query. -/
theorem createMatch_filled (req : CreateProductReq) (o : LimitOrder) :
    createMatch req { o with status := "FILLED" } = false := by
  simp [createMatch]

/-- The condition `RunInv` for an execution that has made its query. -/
theorem RunInv.of_queried {i : Id} {run : CreateRun} {mine other : Nat}
    (hq : run.hasQueried = true) (h1 : mine + run.pendingCount i ≤ 1)
    (h3 : mine + run.pendingCount i = 1 ∨ 1 ≤ other) : RunInv i run mine other :=
  ⟨h1, ⟨fun h => absurd (hq.symm.trans h) (by decide), fun _ => h3⟩⟩

/-- One call of an execution keeps the invariant of the store and its own
condition `RunInv`, the count of its fill writes on the order `o` growing by
one exactly when the call is a `save` of that order. -/
theorem CreateRun.call_keeps_inv (validate : Product → Bool) (hval : ∀ d, validate d = true)
    (req : CreateProductReq) (o : LimitOrder) (hm : createMatch req o = true) (m : Market)
    (run : CreateRun) (mine other : Nat) (hn : (m.orders.map (·.id)).Nodup)
    (hmem : { o with status := statusAfter (mine + other) } ∈ m.orders)
    (hrun : RunInv o.id run mine other) :
    ((run.step validate req m).2.1.orders.map (·.id)).Nodup ∧
    { o with
        status := statusAfter
          (mine + (if (run.step validate req m).2.2 = some o.id then 1 else 0) + other) } ∈
      (run.step validate req m).2.1.orders ∧
    RunInv o.id (run.step validate req m).1
      (mine + (if (run.step validate req m).2.2 = some o.id then 1 else 0)) other := by
  have hact := createMatch_active hm
  cases run with
  | start =>
    simp only [CreateRun.step, hval, if_true, reduceCtorEq, if_false, Nat.add_zero]
    exact ⟨hn, hmem, hrun⟩
  | created =>
    simp only [CreateRun.step, reduceCtorEq, if_false, Nat.add_zero]
    refine ⟨hn, hmem, ?_⟩
    have hmine : mine = 0 := hrun.2.1 rfl
    subst hmine
    have hcount := filter_count_id hn (createMatch req) hmem
    by_cases hother : other = 0
    · subst hother
      have ho : ({ o with status := statusAfter (0 + 0) } : LimitOrder) = o := by
        cases o
        simp_all [statusAfter]
      rw [ho] at hcount
      rw [if_pos hm] at hcount
      have hc : (CreateRun.filling (m.orders.filter (createMatch req))).pendingCount o.id = 1 :=
        hcount
      exact RunInv.of_queried rfl (by omega) (Or.inl (by omega))
    · have hst : statusAfter (0 + other) = "FILLED" := by
        simp [statusAfter, hother]
      rw [hst, createMatch_filled] at hcount
      simp only [Bool.false_eq_true, if_false] at hcount
      have hc : (CreateRun.filling (m.orders.filter (createMatch req))).pendingCount o.id = 0 :=
        hcount
      exact RunInv.of_queried rfl (by omega) (Or.inr (by omega))
  | filling pending =>
    have h1 := hrun.1
    have h3 := hrun.2.2 rfl
    cases pending with
    | nil =>
      simp only [CreateRun.step, reduceCtorEq, if_false, Nat.add_zero]
      refine ⟨hn, hmem, ?_⟩
      simp only [CreateRun.pendingCount, List.map_nil, List.count_nil] at h1 h3
      have hc : (CreateRun.finished (Response.redirect "/dashboard")).pendingCount o.id = 0 :=
        rfl
      exact RunInv.of_queried rfl (by omega) (by omega)
    | cons x rest =>
      simp only [CreateRun.step, Option.some.injEq]
      simp only [CreateRun.pendingCount, List.map_cons, List.count_cons, beq_iff_eq] at h1 h3
      have hc : (CreateRun.filling rest).pendingCount o.id = (rest.map (·.id)).count o.id := rfl
      refine ⟨by rw [LimitOrder.save_ids]; exact hn, ?_, ?_⟩
      · have himg := List.mem_map_of_mem
          (fun y : LimitOrder =>
            if y.id = ({ x with status := "FILLED" } : LimitOrder).id then
              { y with status := ({ x with status := "FILLED" } : LimitOrder).status }
            else y) hmem
        by_cases hx : x.id = o.id
        · have hst : statusAfter (mine + 1 + other) = "FILLED" := by
            simp [statusAfter]
          rw [if_pos hx, hst]
          simpa [LimitOrder.save, hx] using himg
        · rw [if_neg hx]
          have hx2 : ¬ o.id = x.id := fun e => hx e.symm
          simpa [LimitOrder.save, hx2] using himg
      · by_cases hx : x.id = o.id
        · rw [if_pos hx]
          rw [if_pos hx] at h1 h3
          exact RunInv.of_queried rfl (by omega) (by omega)
        · rw [if_neg hx]
          rw [if_neg hx] at h1 h3
          exact RunInv.of_queried rfl (by omega) (by omega)
  | finished r =>
    simp only [CreateRun.step, reduceCtorEq, if_false, Nat.add_zero]
    exact ⟨hn, hmem, hrun⟩

/-- The invariant holds before either execution starts. -/
theorem Race.inv_init (m : Market) (o : LimitOrder) (hwf : m.WF) (ho : o ∈ m.orders)
    (hact : o.status = "ACTIVE") : Race.Inv o (Race.init m) := by
  have ho2 : ({ o with status := statusAfter (0 + 0) } : LimitOrder) = o := by
    cases o
    simp_all [statusAfter]
  refine ⟨hwf.2, ?_, ?_, ?_⟩
  · show ({ o with status := statusAfter (0 + 0) } : LimitOrder) ∈ m.orders
    rw [ho2]
    exact ho
  · exact ⟨Nat.le_succ 0, fun _ => rfl, fun h => by cases h⟩
  · exact ⟨Nat.le_succ 0, fun _ => rfl, fun h => by cases h⟩

/-- One call of either execution keeps the invariant. -/
theorem Race.step_inv (validate : Product → Bool) (hval : ∀ d, validate d = true)
    (reqA reqB : CreateProductReq) (o : LimitOrder) (hA : createMatch reqA o = true)
    (hB : createMatch reqB o = true) (s : Race) (who : Bool) (h : Race.Inv o s) :
    Race.Inv o (Race.step validate reqA reqB s who) := by
  obtain ⟨hn, hmem, hrA, hrB⟩ := h
  cases who with
  | false =>
    obtain ⟨k1, k2, k3⟩ := CreateRun.call_keeps_inv validate hval reqA o hA s.market s.runA
      (s.fillsBy false o.id) (s.fillsBy true o.id) hn hmem hrA
    have hfa : (Race.step validate reqA reqB s false).fillsBy false o.id =
        s.fillsBy false o.id +
          (if (s.runA.step validate reqA s.market).2.2 = some o.id then 1 else 0) := by
      show (s.fills ++ fillEntry false (s.runA.step validate reqA s.market).2.2).count
        (false, o.id) = _
      rw [count_append_fillEntry]
      simp [Race.fillsBy]
    have hfb : (Race.step validate reqA reqB s false).fillsBy true o.id =
        s.fillsBy true o.id := by
      show (s.fills ++ fillEntry false (s.runA.step validate reqA s.market).2.2).count
        (true, o.id) = _
      rw [count_append_fillEntry]
      simp [Race.fillsBy]
    refine ⟨k1, ?_, ?_, ?_⟩
    · rw [hfa, hfb]; exact k2
    · rw [hfa, hfb]; exact k3
    · rw [hfa, hfb]; exact RunInv.mono hrB (Nat.le_add_right _ _)
  | true =>
    have hmem2 : ({ o with status := statusAfter (s.fillsBy true o.id + s.fillsBy false o.id) }
        : LimitOrder) ∈ s.market.orders := by
      rw [Nat.add_comm]; exact hmem
    obtain ⟨k1, k2, k3⟩ := CreateRun.call_keeps_inv validate hval reqB o hB s.market s.runB
      (s.fillsBy true o.id) (s.fillsBy false o.id) hn hmem2 hrB
    have hfb : (Race.step validate reqA reqB s true).fillsBy true o.id =
        s.fillsBy true o.id +
          (if (s.runB.step validate reqB s.market).2.2 = some o.id then 1 else 0) := by
      show (s.fills ++ fillEntry true (s.runB.step validate reqB s.market).2.2).count
        (true, o.id) = _
      rw [count_append_fillEntry]
      simp [Race.fillsBy]
    have hfa : (Race.step validate reqA reqB s true).fillsBy false o.id =
        s.fillsBy false o.id := by
      show (s.fills ++ fillEntry true (s.runB.step validate reqB s.market).2.2).count
        (false, o.id) = _
      rw [count_append_fillEntry]
      simp [Race.fillsBy]
    refine ⟨k1, ?_, ?_, ?_⟩
    · rw [hfa, hfb, Nat.add_comm]; exact k2
    · rw [hfa, hfb]; exact RunInv.mono hrA (Nat.le_add_right _ _)
    · rw [hfa, hfb]; exact k3

/-- A schedule keeps the invariant. -/
theorem Race.exec_inv (validate : Product → Bool) (hval : ∀ d, validate d = true)
    (reqA reqB : CreateProductReq) (o : LimitOrder) (hA : createMatch reqA o = true)
    (hB : createMatch reqB o = true) (schedule : List Bool) (s : Race) (h : Race.Inv o s) :
    Race.Inv o (Race.exec validate reqA reqB s schedule) := by
  induction schedule generalizing s with
  | nil => exact h
  | cons w ws ih =>
    exact ih (Race.step validate reqA reqB s w)
      (Race.step_inv validate hval reqA reqB o hA hB s w h)

/-- A schedule in two parts. -/
theorem Race.exec_append (validate : Product → Bool) (reqA reqB : CreateProductReq) (s : Race)
    (s1 s2 : List Bool) :
    Race.exec validate reqA reqB s (s1 ++ s2) =
      Race.exec validate reqA reqB (Race.exec validate reqA reqB s s1) s2 := by
  simp [Race.exec, List.foldl_append]

/-- When both executions are done, the order is `FILLED` after one or two
fill writes, at most one by each execution. -/
theorem Race.inv_finished (o : LimitOrder) (s : Race) (h : Race.Inv o s)
    (hfa : s.runA.isFinished = true) (hfb : s.runB.isFinished = true) :
    orderStatus s.market.orders o.id = some "FILLED" ∧ 1 ≤ s.fillWrites o.id ∧
      s.fillWrites o.id ≤ 2 ∧ s.fillsBy false o.id ≤ 1 ∧ s.fillsBy true o.id ≤ 1 := by
  obtain ⟨hn, hmem, hrA, hrB⟩ := h
  cases hA : s.runA with
  | finished ra =>
    cases hB : s.runB with
    | finished rb =>
      rw [hA] at hrA
      rw [hB] at hrB
      have a1 : s.fillsBy false o.id + 0 ≤ 1 := hrA.1
      have a3 : s.fillsBy false o.id + 0 = 1 ∨ 1 ≤ s.fillsBy true o.id := hrA.2.2 rfl
      have b1 : s.fillsBy true o.id + 0 ≤ 1 := hrB.1
      have hpos : s.fillsBy false o.id + s.fillsBy true o.id ≠ 0 := by omega
      have hst := orderStatus_of_mem hn hmem
      simp only [statusAfter, hpos, if_false] at hst
      exact ⟨hst, by unfold Race.fillWrites; omega, by unfold Race.fillWrites; omega,
        by omega, by omega⟩
    | start => rw [hB] at hfb; cases hfb
    | created => rw [hB] at hfb; cases hfb
    | filling p => rw [hB] at hfb; cases hfb
  | start => rw [hA] at hfa; cases hfa
  | created => rw [hA] at hfa; cases hfa
  | filling p => rw [hA] at hfa; cases hfa

/-- No call changes the number of persisted orders. -/
theorem CreateRun.step_orders_length (validate : Product → Bool) (req : CreateProductReq)
    (run : CreateRun) (m : Market) :
    (run.step validate req m).2.1.orders.length = m.orders.length := by
  cases run with
  | start => simp only [CreateRun.step]; split <;> rfl
  | created => rfl
  | filling pending =>
    cases pending with
    | nil => rfl
    | cons x rest => simp [CreateRun.step, LimitOrder.save]
  | finished r => rfl

/-- Each call of an execution brings it closer to its response. -/
theorem CreateRun.step_stepsLeft (validate : Product → Bool) (req : CreateProductReq)
    (run : CreateRun) (m : Market) :
    (run.step validate req m).1.stepsLeft m.orders.length ≤
      run.stepsLeft m.orders.length - 1 := by
  cases run with
  | start =>
    simp only [CreateRun.step]
    split <;> simp [CreateRun.stepsLeft]
  | created =>
    simp only [CreateRun.step, CreateRun.stepsLeft]
    have := List.length_filter_le (createMatch req) m.orders
    omega
  | filling pending =>
    cases pending with
    | nil => simp [CreateRun.step, CreateRun.stepsLeft]
    | cons x rest => simp [CreateRun.step, CreateRun.stepsLeft]
  | finished r => simp [CreateRun.step, CreateRun.stepsLeft]

/-- An execution with no call left has sent its response. -/
theorem CreateRun.finished_of_stepsLeft (n : Nat) (run : CreateRun)
    (h : run.stepsLeft n = 0) : run.isFinished = true := by
  cases run with
  | finished r => rfl
  | start => simp [CreateRun.stepsLeft] at h
  | created => simp [CreateRun.stepsLeft] at h
  | filling p => simp [CreateRun.stepsLeft] at h

/-- A schedule leaves each execution at most as many calls as it had, less
the turns it was given; the number of orders does not change. -/
theorem Race.exec_stepsLeft (validate : Product → Bool) (reqA reqB : CreateProductReq)
    (schedule : List Bool) (s : Race) :
    (Race.exec validate reqA reqB s schedule).market.orders.length = s.market.orders.length ∧
    (Race.exec validate reqA reqB s schedule).runA.stepsLeft s.market.orders.length ≤
      s.runA.stepsLeft s.market.orders.length - schedule.count false ∧
    (Race.exec validate reqA reqB s schedule).runB.stepsLeft s.market.orders.length ≤
      s.runB.stepsLeft s.market.orders.length - schedule.count true := by
  induction schedule generalizing s with
  | nil => exact ⟨rfl, Nat.le_refl _, Nat.le_refl _⟩
  | cons w ws ih =>
    obtain ⟨i1, i2, i3⟩ := ih (Race.step validate reqA reqB s w)
    cases w with
    | false =>
      have hlen : (Race.step validate reqA reqB s false).market.orders.length =
          s.market.orders.length := CreateRun.step_orders_length validate reqA s.runA s.market
      have hA : (Race.step validate reqA reqB s false).runA.stepsLeft s.market.orders.length ≤
          s.runA.stepsLeft s.market.orders.length - 1 :=
        CreateRun.step_stepsLeft validate reqA s.runA s.market
      have hB : (Race.step validate reqA reqB s false).runB = s.runB := rfl
      rw [hlen] at i1 i2 i3
      rw [hB] at i3
      refine ⟨i1, ?_, ?_⟩
      · show (Race.exec validate reqA reqB (Race.step validate reqA reqB s false) ws).runA.stepsLeft
          s.market.orders.length ≤ _
        simp only [List.count_cons_self]
        omega
      · show (Race.exec validate reqA reqB (Race.step validate reqA reqB s false) ws).runB.stepsLeft
          s.market.orders.length ≤ _
        have : List.count true (false :: ws) = List.count true ws := by simp
        rw [this]
        exact i3
    | true =>
      have hlen : (Race.step validate reqA reqB s true).market.orders.length =
          s.market.orders.length := CreateRun.step_orders_length validate reqB s.runB s.market
      have hB : (Race.step validate reqA reqB s true).runB.stepsLeft s.market.orders.length ≤
          s.runB.stepsLeft s.market.orders.length - 1 :=
        CreateRun.step_stepsLeft validate reqB s.runB s.market
      have hA : (Race.step validate reqA reqB s true).runA = s.runA := rfl
      rw [hlen] at i1 i2 i3
      rw [hA] at i2
      refine ⟨i1, ?_, ?_⟩
      · show (Race.exec validate reqA reqB (Race.step validate reqA reqB s true) ws).runA.stepsLeft
          s.market.orders.length ≤ _
        have : List.count false (true :: ws) = List.count false ws := by simp
        rw [this]
        exact i2
      · show (Race.exec validate reqA reqB (Race.step validate reqA reqB s true) ws).runB.stepsLeft
          s.market.orders.length ≤ _
        simp only [List.count_cons_self]
        omega

/-- While only the first execution makes calls, the second one stays where it
is and has performed no more fill writes. -/
theorem Race.exec_first_only (validate : Product → Bool) (reqA reqB : CreateProductReq)
    (i : Id) (a : Nat) (s : Race) :
    (Race.exec validate reqA reqB s (List.replicate a false)).runB = s.runB ∧
    (Race.exec validate reqA reqB s (List.replicate a false)).fillsBy true i =
      s.fillsBy true i := by
  induction a generalizing s with
  | zero => exact ⟨rfl, rfl⟩
  | succ n ih =>
    obtain ⟨h1, h2⟩ := ih (Race.step validate reqA reqB s false)
    have hB : (Race.step validate reqA reqB s false).runB = s.runB := rfl
    have hf : (Race.step validate reqA reqB s false).fillsBy true i = s.fillsBy true i := by
      show (s.fills ++ fillEntry false (s.runA.step validate reqA s.market).2.2).count
        (true, i) = _
      rw [count_append_fillEntry]
      simp [Race.fillsBy]
    refine ⟨?_, ?_⟩
    · show (Race.exec validate reqA reqB (Race.step validate reqA reqB s false)
        (List.replicate n false)).runB = s.runB
      rw [h1, hB]
    · show (Race.exec validate reqA reqB (Race.step validate reqA reqB s false)
        (List.replicate n false)).fillsBy true i = s.fillsBy true i
      rw [h2, hf]

/-- Once the order is `FILLED` in the store, an execution that has not
selected it does not write it: its next call is no `save` of this order, and
its query does not select it. -/
theorem CreateRun.step_settled (validate : Product → Bool) (hval : ∀ d, validate d = true)
    (req : CreateProductReq) (o : LimitOrder) (m : Market) (run : CreateRun)
    (hn : (m.orders.map (·.id)).Nodup)
    (hmem : ({ o with status := "FILLED" } : LimitOrder) ∈ m.orders)
    (hz : run.pendingCount o.id = 0) :
    (run.step validate req m).2.2 ≠ some o.id ∧
      (run.step validate req m).1.pendingCount o.id = 0 := by
  cases run with
  | start =>
    simp only [CreateRun.step, hval, if_true]
    exact ⟨by simp, rfl⟩
  | created =>
    simp only [CreateRun.step]
    refine ⟨by simp, ?_⟩
    have hcount := filter_count_id hn (createMatch req) hmem
    rw [createMatch_filled] at hcount
    simpa using hcount
  | filling pending =>
    cases pending with
    | nil => exact ⟨by simp [CreateRun.step], rfl⟩
    | cons x rest =>
      simp only [CreateRun.pendingCount, List.map_cons, List.count_cons, beq_iff_eq] at hz
      have hx : x.id ≠ o.id := by
        intro e
        rw [if_pos e] at hz
        omega
      rw [if_neg hx] at hz
      simp only [CreateRun.step]
      exact ⟨by simpa using hx, by simpa [CreateRun.pendingCount] using hz⟩
  | finished r => exact ⟨by simp [CreateRun.step], rfl⟩

/-- After the first execution has filled the order, the calls of the second
one add no fill write on it. -/
theorem Race.exec_second_only (validate : Product → Bool) (hval : ∀ d, validate d = true)
    (reqA reqB : CreateProductReq) (o : LimitOrder) (hA : createMatch reqA o = true)
    (hB : createMatch reqB o = true) (b : Nat) (s : Race) (h : Race.Inv o s)
    (h1 : s.fillsBy false o.id = 1) (h0 : s.fillsBy true o.id = 0)
    (hp : s.runB.pendingCount o.id = 0) :
    (Race.exec validate reqA reqB s (List.replicate b true)).fillsBy false o.id = 1 ∧
    (Race.exec validate reqA reqB s (List.replicate b true)).fillsBy true o.id = 0 := by
  induction b generalizing s with
  | zero => exact ⟨h1, h0⟩
  | succ n ih =>
    have hmem : ({ o with status := "FILLED" } : LimitOrder) ∈ s.market.orders := by
      have := h.2.1
      rw [h1, h0] at this
      simpa [statusAfter] using this
    obtain ⟨k1, k2⟩ := CreateRun.step_settled validate hval reqB o s.market s.runB h.1 hmem hp
    have hfa : (Race.step validate reqA reqB s true).fillsBy false o.id = 1 := by
      show (s.fills ++ fillEntry true (s.runB.step validate reqB s.market).2.2).count
        (false, o.id) = 1
      rw [count_append_fillEntry]
      simpa [Race.fillsBy] using h1
    have hfb : (Race.step validate reqA reqB s true).fillsBy true o.id = 0 := by
      show (s.fills ++ fillEntry true (s.runB.step validate reqB s.market).2.2).count
        (true, o.id) = 0
      rw [count_append_fillEntry]
      simpa [Race.fillsBy, k1] using h0
    exact ih (Race.step validate reqA reqB s true)
      (Race.step_inv validate hval reqA reqB o hA hB s true h) hfa hfb k2

/-- An execution that has sent its response makes no further change. -/
theorem Race.exec_finished (validate : Product → Bool) (reqA reqB : CreateProductReq)
    (k : Nat) (s : Race) (r : Response) (h : s.runA = CreateRun.finished r) :
    (Race.exec validate reqA reqB s (List.replicate k false)).runA = CreateRun.finished r ∧
    (Race.exec validate reqA reqB s (List.replicate k false)).market = s.market := by
  induction k generalizing s with
  | zero => exact ⟨h, rfl⟩
  | succ n ih =>
    have h1 : (Race.step validate reqA reqB s false).runA = CreateRun.finished r := by
      show (s.runA.step validate reqA s.market).1 = _
      rw [h]; rfl
    have h2 : (Race.step validate reqA reqB s false).market = s.market := by
      show (s.runA.step validate reqA s.market).2.1 = _
      rw [h]; rfl
    obtain ⟨i1, i2⟩ := ih (Race.step validate reqA reqB s false) h1
    exact ⟨i1, i2.trans h2⟩

/-- The loop of an execution running alone saves its selected orders one
after the other, as `fillOrders` does, and then redirects. -/
theorem Race.exec_filling (validate : Product → Bool) (reqA reqB : CreateProductReq)
    (pending : List LimitOrder) (k : Nat) (s : Race)
    (h : s.runA = CreateRun.filling pending) (hk : pending.length + 1 ≤ k) :
    (Race.exec validate reqA reqB s (List.replicate k false)).runA =
        CreateRun.finished (Response.redirect "/dashboard") ∧
    (Race.exec validate reqA reqB s (List.replicate k false)).market =
      { products := s.market.products, orders := fillOrders s.market.orders pending } := by
  induction pending generalizing s k with
  | nil =>
    obtain ⟨n, rfl⟩ : ∃ n, k = n + 1 := ⟨k - 1, by omega⟩
    have h1 : (Race.step validate reqA reqB s false).runA =
        CreateRun.finished (Response.redirect "/dashboard") := by
      show (s.runA.step validate reqA s.market).1 = _
      rw [h]; rfl
    have h2 : (Race.step validate reqA reqB s false).market = s.market := by
      show (s.runA.step validate reqA s.market).2.1 = _
      rw [h]; rfl
    obtain ⟨i1, i2⟩ := Race.exec_finished validate reqA reqB n _ _ h1
    exact ⟨i1, i2.trans h2⟩
  | cons x rest ih =>
    obtain ⟨n, rfl⟩ : ∃ n, k = n + 1 := ⟨k - 1, by omega⟩
    have h1 : (Race.step validate reqA reqB s false).runA = CreateRun.filling rest := by
      show (s.runA.step validate reqA s.market).1 = _
      rw [h]; rfl
    have h2 : (Race.step validate reqA reqB s false).market =
        { products := s.market.products,
          orders := LimitOrder.save s.market.orders { x with status := "FILLED" } } := by
      show (s.runA.step validate reqA s.market).2.1 = _
      rw [h]; rfl
    obtain ⟨i1, i2⟩ := ih n (Race.step validate reqA reqB s false) h1
      (by simp only [List.length_cons] at hk; omega)
    refine ⟨i1, ?_⟩
    show (Race.exec validate reqA reqB (Race.step validate reqA reqB s false)
      (List.replicate n false)).market = _
    rw [i2, h2]
    rfl

/-- An execution of the interleaving model that runs alone does what the
handler `createProduct` does: same store, same response. -/
theorem Race.exec_alone (validate : Product → Bool) (reqA reqB : CreateProductReq)
    (m : Market) :
    (Race.exec validate reqA reqB (Race.init m)
        (List.replicate (m.orders.length + 3) false)).market =
      (createProduct validate m reqA).1 ∧
    (Race.exec validate reqA reqB (Race.init m)
        (List.replicate (m.orders.length + 3) false)).runA =
      CreateRun.finished (createProduct validate m reqA).2 := by
  cases hv : validate (reqA.toProduct (freshId (m.products.map (·.id)))) with
  | false =>
    have h1 : (Race.step validate reqA reqB (Race.init m) false).runA =
        CreateRun.finished (Response.render 200 "products/create"
          (some "Error creating product. Please try again.")) := by
      show (CreateRun.start.step validate reqA m).1 = _
      simp [CreateRun.step, hv]
    have h2 : (Race.step validate reqA reqB (Race.init m) false).market = m := by
      show (CreateRun.start.step validate reqA m).2.1 = _
      simp [CreateRun.step, hv]
    obtain ⟨i1, i2⟩ := Race.exec_finished validate reqA reqB (m.orders.length + 2) _ _ h1
    have hc : createProduct validate m reqA =
        (m, Response.render 200 "products/create"
          (some "Error creating product. Please try again.")) := by
      simp [createProduct, hv]
    rw [hc]
    exact ⟨i2.trans h2, i1⟩
  | true =>
    have h1 : (Race.step validate reqA reqB
        (Race.step validate reqA reqB (Race.init m) false) false).runA =
        CreateRun.filling (m.orders.filter (createMatch reqA)) := by
      show (((CreateRun.start.step validate reqA m).1).step validate reqA
        (CreateRun.start.step validate reqA m).2.1).1 = _
      simp [CreateRun.step, hv]
    have h2 : (Race.step validate reqA reqB
        (Race.step validate reqA reqB (Race.init m) false) false).market =
        { products := m.products ++ [reqA.toProduct (freshId (m.products.map (·.id)))],
          orders := m.orders } := by
      show (((CreateRun.start.step validate reqA m).1).step validate reqA
        (CreateRun.start.step validate reqA m).2.1).2.1 = _
      simp [CreateRun.step, hv]
    obtain ⟨i1, i2⟩ := Race.exec_filling validate reqA reqB _ (m.orders.length + 1) _ h1
      (by have := List.length_filter_le (createMatch reqA) m.orders; omega)
    have hc : createProduct validate m reqA =
        ({ products := m.products ++ [reqA.toProduct (freshId (m.products.map (·.id)))],
           orders := fillOrders m.orders (m.orders.filter (createMatch reqA)) },
          Response.redirect "/dashboard") := by
      simp [createProduct, hv]
    rw [hc]
    refine ⟨?_, i1⟩
    show (Race.exec validate reqA reqB (Race.step validate reqA reqB
      (Race.step validate reqA reqB (Race.init m) false) false)
      (List.replicate (m.orders.length + 1) false)).market = _
    rw [i2, h2]

/-- C14, amended: for an order of a store with unique `_id`s and two
executions of `createProduct` whose listings each satisfy the query for that
order, under every interleaving of their awaited calls that lets both finish,
the order ends `FILLED` after at least one and at most two fill writes, at
most one by each execution; both executions finish once each has been given
as many turns as there are orders plus three; and when the first execution
has finished before the second makes its first call, exactly one fill write
is performed. The write is not conditional on the status in the store. -/
theorem race_fill_writes (validate : Product → Bool) (hval : ∀ d, validate d = true)
    (m : Market) (reqA reqB : CreateProductReq) (o : LimitOrder) (hwf : m.WF)
    (ho : o ∈ m.orders) (hA : createMatch reqA o = true) (hB : createMatch reqB o = true) :
    (∀ schedule : List Bool,
      (Race.exec validate reqA reqB (Race.init m) schedule).runA.isFinished = true →
      (Race.exec validate reqA reqB (Race.init m) schedule).runB.isFinished = true →
      orderStatus (Race.exec validate reqA reqB (Race.init m) schedule).market.orders o.id =
          some "FILLED" ∧
        1 ≤ (Race.exec validate reqA reqB (Race.init m) schedule).fillWrites o.id ∧
        (Race.exec validate reqA reqB (Race.init m) schedule).fillWrites o.id ≤ 2 ∧
        (Race.exec validate reqA reqB (Race.init m) schedule).fillsBy false o.id ≤ 1 ∧
        (Race.exec validate reqA reqB (Race.init m) schedule).fillsBy true o.id ≤ 1) ∧
    (∀ schedule : List Bool,
      m.orders.length + 3 ≤ schedule.count false → m.orders.length + 3 ≤ schedule.count true →
      (Race.exec validate reqA reqB (Race.init m) schedule).runA.isFinished = true ∧
        (Race.exec validate reqA reqB (Race.init m) schedule).runB.isFinished = true) ∧
    (∀ a b : Nat,
      (Race.exec validate reqA reqB (Race.init m) (List.replicate a false)).runA.isFinished =
        true →
      (Race.exec validate reqA reqB (Race.init m)
        (List.replicate a false ++ List.replicate b true)).fillWrites o.id = 1) := by
  have hinit := Race.inv_init m o hwf ho (createMatch_active hA)
  refine ⟨?_, ?_, ?_⟩
  · intro schedule hfa hfb
    exact Race.inv_finished o _
      (Race.exec_inv validate hval reqA reqB o hA hB schedule _ hinit) hfa hfb
  · intro schedule hca hcb
    obtain ⟨-, h2, h3⟩ := Race.exec_stepsLeft validate reqA reqB schedule (Race.init m)
    have h2a : (Race.exec validate reqA reqB (Race.init m) schedule).runA.stepsLeft
        m.orders.length ≤ m.orders.length + 3 - schedule.count false := h2
    have h3a : (Race.exec validate reqA reqB (Race.init m) schedule).runB.stepsLeft
        m.orders.length ≤ m.orders.length + 3 - schedule.count true := h3
    exact ⟨CreateRun.finished_of_stepsLeft m.orders.length _ (by omega),
      CreateRun.finished_of_stepsLeft m.orders.length _ (by omega)⟩
  · intro a b hfa
    have hinv1 := Race.exec_inv validate hval reqA reqB o hA hB (List.replicate a false) _ hinit
    obtain ⟨hrunB, hfb0⟩ :=
      Race.exec_first_only validate reqA reqB o.id a (Race.init m)
    have hfb : (Race.exec validate reqA reqB (Race.init m)
        (List.replicate a false)).fillsBy true o.id = 0 := by
      rw [hfb0]; rfl
    have hfa1 : (Race.exec validate reqA reqB (Race.init m)
        (List.replicate a false)).fillsBy false o.id = 1 := by
      have hrA := hinv1.2.2.1
      cases hr : (Race.exec validate reqA reqB (Race.init m) (List.replicate a false)).runA with
      | finished r =>
        rw [hr] at hrA
        have a1 : _ + 0 ≤ 1 := hrA.1
        have a3 := hrA.2.2 rfl
        rw [hfb] at a3
        have a4 : (Race.exec validate reqA reqB (Race.init m)
            (List.replicate a false)).fillsBy false o.id + 0 = 1 ∨ 1 ≤ 0 := a3
        omega
      | start => rw [hr] at hfa; cases hfa
      | created => rw [hr] at hfa; cases hfa
      | filling p => rw [hr] at hfa; cases hfa
    have hpB : (Race.exec validate reqA reqB (Race.init m)
        (List.replicate a false)).runB.pendingCount o.id = 0 := by
      rw [hrunB]; rfl
    obtain ⟨e1, e2⟩ := Race.exec_second_only validate hval reqA reqB o hA hB b _ hinv1
      hfa1 hfb hpB
    rw [Race.exec_append]
    unfold Race.fillWrites
    rw [e1, e2]

/-- Witness of C14 (amended): at the race scenario, the interleaving in which
both executions query first ends with the order `FILLED` after one or two
fill writes, and the schedule in which the first execution finishes before
the second starts performs exactly one. -/
theorem race_fill_writes_witness :
    (orderStatus (Race.exec (fun _ => true) raceListingA raceListingB (Race.init raceMarket)
        racySchedule).market.orders raceOrder.id = some "FILLED" ∧
      1 ≤ (Race.exec (fun _ => true) raceListingA raceListingB (Race.init raceMarket)
        racySchedule).fillWrites raceOrder.id ∧
      (Race.exec (fun _ => true) raceListingA raceListingB (Race.init raceMarket)
        racySchedule).fillWrites raceOrder.id ≤ 2 ∧
      (Race.exec (fun _ => true) raceListingA raceListingB (Race.init raceMarket)
        racySchedule).fillsBy false raceOrder.id ≤ 1 ∧
      (Race.exec (fun _ => true) raceListingA raceListingB (Race.init raceMarket)
        racySchedule).fillsBy true raceOrder.id ≤ 1) ∧
    (Race.exec (fun _ => true) raceListingA raceListingB (Race.init raceMarket)
      (List.replicate 4 false ++ List.replicate 4 true)).fillWrites raceOrder.id = 1 :=
  ⟨(race_fill_writes (fun _ => true) (fun _ => rfl) raceMarket raceListingA raceListingB
      raceOrder (by decide) (by decide) (by decide) (by decide)).1 racySchedule
      (by decide) (by decide),
    (race_fill_writes (fun _ => true) (fun _ => rfl) raceMarket raceListingA raceListingB
      raceOrder (by decide) (by decide) (by decide) (by decide)).2.2 4 4 (by decide)⟩

end IUTMart
